import Mathlib

/-!
Shallow embedding of the mcp-server-spreadsheet core: the Spreadsheet
Access Layer (`src/utils/spreadsheet-client.ts`), the Identifier Resolver
(`src/utils/url-parser.ts`), and the value-shape validation of the
`update_cells` / `batch_update_cells` tools.

Remote I/O is modelled by an explicit environment of response functions
(`RemoteEnv`); every operation returns its result together with the list
of remote calls it issued, so "fails before any remote write" claims are
statements about that trace.

JavaScript semantics that matter here are modelled explicitly:
`x || d` coalesces every falsy value (undefined, empty string, zero),
optional member access is `Option.bind`, and `String.prototype.match`
with an unanchored regular expression searches for the leftmost match
position in the input.
-/

/-- A scalar cell value (JSON scalar), as transported in value matrices. -/
inductive CellValue where
  | str (s : String)
  | num (n : Int)
  | boolean (b : Bool)
  | nullV
deriving DecidableEq, Repr

/-- A row as received by the tool layer: a JS value that is either an
array of cells or some non-array value (the zod schema uses `z.any()`,
and the tools re-check `Array.isArray(row)` at runtime). -/
inductive JsRow where
  | arr (cells : List CellValue)
  | nonArr
deriving DecidableEq, Repr

/-- A `values` argument as received by the tool layer: either a 2D array
or a non-array value (`Array.isArray(args.values)` is re-checked). -/
inductive JsMatrix where
  | arr (rows : List JsRow)
  | nonArr
deriving DecidableEq, Repr

/-- JS `v || d` for an optional string: `undefined` and `""` are falsy. -/
def strOr (v : Option String) (d : String) : String :=
  match v with
  | none => d
  | some s => if s = "" then d else s

/-- JS `v || d` for an optional number: `undefined` and `0` are falsy. -/
def intOr (v : Option Int) (d : Int) : Int :=
  match v with
  | none => d
  | some n => if n = 0 then d else n

/-- One hexadecimal digit (lower case), as produced by JSON escapes. -/
def hexDigit (n : Nat) : Char :=
  if n < 10 then Char.ofNat (48 + n)
  else Char.ofNat (87 + n)

/-- `JSON.stringify` escape of a single character inside a string
literal: quote, backslash, the named control escapes, and `\u00XX` for
the remaining control characters. -/
def jsonEscapeChar (c : Char) : String :=
  if c = '"' then "\\\""
  else if c = '\\' then "\\\\"
  else if c = '\n' then "\\n"
  else if c = '\r' then "\\r"
  else if c = '\t' then "\\t"
  else if c.toNat = 8 then "\\b"
  else if c.toNat = 12 then "\\f"
  else if c.toNat < 32 then
    String.mk ['\\', 'u', '0', '0', hexDigit (c.toNat / 16), hexDigit (c.toNat % 16)]
  else String.mk [c]

/-- `JSON.stringify` of a string value. -/
def jsonStringifyStr (s : String) : String :=
  "\"" ++ String.join (s.data.map jsonEscapeChar) ++ "\""

/-- `JSON.stringify` of a scalar cell value. -/
def jsonStringifyCell (c : CellValue) : String :=
  match c with
  | .str s => jsonStringifyStr s
  | .num n => toString n
  | .boolean b => if b then "true" else "false"
  | .nullV => "null"

/-- Compact `JSON.stringify` of a row of cells. -/
def jsonStringifyRow (r : List CellValue) : String :=
  "[" ++ String.intercalate "," (r.map jsonStringifyCell) ++ "]"

/-- Compact `JSON.stringify` of a cell matrix, as used by the response
size check of `getSheetValues`. -/
def jsonStringifyMatrix (m : List (List CellValue)) : String :=
  "[" ++ String.intercalate "," (m.map jsonStringifyRow) ++ "]"

/-- Compact `JSON.stringify` of a tool-layer row. A non-array row is
only ever serialized after shape validation has ruled it out, so its
rendering is arbitrary here. -/
def jsonStringifyJsRow (r : JsRow) : String :=
  match r with
  | .arr cells => jsonStringifyRow cells
  | .nonArr => "null"

/-- Compact `JSON.stringify` of a tool-layer matrix (only reached after
shape validation, where every row is an array). -/
def jsonStringifyJsMatrix (m : JsMatrix) : String :=
  match m with
  | .arr rows => "[" ++ String.intercalate "," (rows.map jsonStringifyJsRow) ++ "]"
  | .nonArr => "null"

/-- `JSON.stringify(value, null, 2)` of a row, with `pad` the indent of
the enclosing bracket. An empty array prints as `[]` with no newline. -/
def jsonStringifyRowPretty (pad : String) (r : JsRow) : String :=
  match r with
  | .nonArr => "null"
  | .arr [] => "[]"
  | .arr cells =>
    "[\n"
      ++ String.intercalate ",\n" (cells.map (fun c => pad ++ "  " ++ jsonStringifyCell c))
      ++ "\n" ++ pad ++ "]"

/-- `JSON.stringify(value, null, 2)` of a 2D values argument, as
embedded in the `update_cells` success message. -/
def jsonStringifyMatrixPretty (m : JsMatrix) : String :=
  match m with
  | .nonArr => "null"
  | .arr [] => "[]"
  | .arr rows =>
    "[\n"
      ++ String.intercalate ",\n" (rows.map (fun r => "  " ++ jsonStringifyRowPretty "  " r))
      ++ "\n]"

/-! ## Raw remote responses (the googleapis response shapes the client reads) -/

/-- `sheet.properties.gridProperties` of the metadata response. -/
structure RawGridProperties where
  rowCount : Option Int
  columnCount : Option Int
deriving DecidableEq, Repr

/-- `sheet.properties` of the metadata response (also the shape read
back from an addSheet reply). -/
structure RawSheetProperties where
  title : Option String
  sheetId : Option Int
  gridProperties : Option RawGridProperties
deriving DecidableEq, Repr

/-- One entry of `spreadsheet.sheets`. -/
structure RawSheet where
  properties : Option RawSheetProperties
deriving DecidableEq, Repr

/-- `spreadsheet.properties`. -/
structure RawSpreadsheetProperties where
  title : Option String
deriving DecidableEq, Repr

/-- The raw `spreadsheets.get` response body. -/
structure RawSpreadsheet where
  properties : Option RawSpreadsheetProperties
  sheets : Option (List RawSheet)
deriving DecidableEq, Repr

/-! ## Shaped data model (`src/types/index.ts`) -/

/-- `SheetInfo`: the shaped per-sheet descriptor. -/
structure SheetInfo where
  title : String
  sheetId : Int
  rowCount : Int
  columnCount : Int
deriving DecidableEq, Repr

/-- `SpreadsheetInfo`: the shaped snapshot of a spreadsheet. -/
structure SpreadsheetInfo where
  spreadsheetId : String
  title : String
  sheets : List SheetInfo
deriving DecidableEq, Repr

/-- The shaping of one raw sheet entry inside `getSpreadsheetInfo`:
`const properties = sheet.properties || {}` (an object is always truthy,
so this only replaces `undefined`), then `||`-defaulting of each field. -/
def formatSheet (sheet : RawSheet) : SheetInfo :=
  let properties := sheet.properties.getD { title := none, sheetId := none, gridProperties := none }
  { title := strOr properties.title "Untitled Sheet"
    sheetId := intOr properties.sheetId 0
    rowCount := intOr (properties.gridProperties.bind (fun g => g.rowCount)) 0
    columnCount := intOr (properties.gridProperties.bind (fun g => g.columnCount)) 0 }

/-- The pure shaping performed by `getSpreadsheetInfo` on the raw
response: `spreadsheet.properties?.title || "Untitled Spreadsheet"` and
`spreadsheet.sheets?.map(...) || []`. -/
def formatSpreadsheet (spreadsheetId : String) (spreadsheet : RawSpreadsheet) : SpreadsheetInfo :=
  { spreadsheetId := spreadsheetId
    title := strOr (spreadsheet.properties.bind (fun p => p.title)) "Untitled Spreadsheet"
    sheets := (spreadsheet.sheets.map (fun l => l.map formatSheet)).getD [] }

/-! ## A1 range validation (`isValidRange`, `validateA1Notation`) -/

/-- Membership in the character class `[A-Z]`. -/
def isUpperAZ (c : Char) : Bool :=
  'A' ≤ c && c ≤ 'Z'

/-- Membership in the character class `[0-9]`. -/
def isDigit09 (c : Char) : Bool :=
  '0' ≤ c && c ≤ '9'

/-- `/^[A-Z]+[0-9]+$/.test` on a character list. Because the two
character classes are disjoint, the greedy `[A-Z]+` can only ever match
the maximal leading run of uppercase letters, so the regular expression
holds exactly when that run is non-empty and everything after it is a
non-empty run of digits. -/
def isCellRefChars (cs : List Char) : Bool :=
  let letters := cs.takeWhile isUpperAZ
  let rest := cs.dropWhile isUpperAZ
  !letters.isEmpty && !rest.isEmpty && rest.all isDigit09

/-- `/^[A-Z]+[0-9]+:[A-Z]+[0-9]+$/.test` on a character list. Neither
`[A-Z]` nor `[0-9]` contains `:`, so the left cell reference must end at
the first colon of the string, and a second colon anywhere would make
the right part fail the cell-reference test. -/
def isRangeRefChars (cs : List Char) : Bool :=
  let before := cs.takeWhile (fun c => c ≠ ':')
  match cs.dropWhile (fun c => c ≠ ':') with
  | ':' :: after => isCellRefChars before && isCellRefChars after
  | _ => false

/-- `SpreadsheetClient.isValidRange`: accepts a single cell (`A1`) or,
when the string contains a colon, a rectangular range (`A1:B2`). -/
def isValidRange (range : String) : Bool :=
  if isCellRefChars range.data then true
  else if range.data.contains ':' then isRangeRefChars range.data
  else false

/-- `split("!")` on a character list: the segments between occurrences
of `!` (a trailing `!` yields a trailing empty segment, as in JS). -/
def splitOnBang : List Char → List (List Char)
  | [] => [[]]
  | '!' :: rest => [] :: splitOnBang rest
  | c :: rest =>
    match splitOnBang rest with
    | [] => [[c]]
    | seg :: segs => (c :: seg) :: segs

/-- The sub-range the client validates: `const [, range] = a1.split("!")`
takes the second element of the split, the segment between the first and
second `!` of the string. -/
def subRangeAfterBang (a1 : String) : String :=
  String.mk (((splitOnBang a1.data).drop 1).headD [])

/-- `SpreadsheetClient.validateA1Notation` (the name is shortened here):
if the string contains `!`, the segment after the first `!` (up to a
second `!`, if any) is validated — unless it is empty, which JS
truthiness (`if (range && !this.isValidRange(range))`) lets through.
Without a `!` the string is a bare sheet title and nothing is checked. -/
def validateA1 (a1 : String) : Except String Unit :=
  if a1.data.contains '!' then
    let range := subRangeAfterBang a1
    if range ≠ "" && !isValidRange range then
      .error ("Invalid A1 notation range: " ++ range)
    else .ok ()
  else .ok ()

/-- The qualified-range construction shared by `prepareSheetRange` and
`batchUpdateCellValues`: `let fullRange = sheetName; if (range) {...}`.
A missing or empty (falsy) range yields the bare sheet name; a range
containing `!` is used verbatim; otherwise `sheetName!range`. -/
def buildFullRange (sheetName : String) (range : Option String) : String :=
  match range with
  | none => sheetName
  | some r =>
    if r = "" then sheetName
    else if r.data.contains '!' then r
    else sheetName ++ "!" ++ r

/-! ## Remote calls, responses, and the environment -/

/-- One element of the `data` array of a `values.batchUpdate` request. -/
structure BatchDataItem where
  range : String
  values : List JsRow
deriving DecidableEq, Repr

/-- The `addSheet.properties` carried by the structural batch-update
request issued by `addSheet`. -/
structure AddSheetRequest where
  title : String
  rowCount : Int
  columnCount : Int
deriving DecidableEq, Repr

/-- A remote call issued by the Access Layer, as recorded in traces. -/
inductive RemoteCall where
  | getInfo (spreadsheetId : String)
  | valuesGet (spreadsheetId : String) (range : String)
  | valuesUpdate (spreadsheetId : String) (range : String) (values : List JsRow)
  | valuesBatchUpdate (spreadsheetId : String) (data : List BatchDataItem)
  | sheetBatchUpdate (spreadsheetId : String) (request : AddSheetRequest)
deriving DecidableEq, Repr

/-- Response body of `values.update`. -/
structure UpdateValuesResponse where
  updatedRows : Option Int
  updatedCells : Option Int
deriving DecidableEq, Repr

/-- Response body of `values.batchUpdate`. -/
structure BatchValuesResponse where
  totalUpdatedCells : Option Int
  totalUpdatedColumns : Option Int
  totalUpdatedRows : Option Int
deriving DecidableEq, Repr

/-- The `addSheet` member of one reply of a structural batch update. -/
structure AddSheetReplyBody where
  properties : Option RawSheetProperties
deriving DecidableEq, Repr

/-- One entry of `response.data.replies`. -/
structure SheetReply where
  addSheet : Option AddSheetReplyBody
deriving DecidableEq, Repr

/-- Response body of the structural `spreadsheets.batchUpdate`. -/
structure SheetBatchResponse where
  replies : Option (List SheetReply)
deriving DecidableEq, Repr

/-- The remote authority, modelled as response functions for each of the
call shapes the client issues. -/
structure RemoteEnv where
  getResp : String → RawSpreadsheet
  valuesGetResp : String → String → Option (List (List CellValue))
  valuesUpdateResp : String → String → List JsRow → UpdateValuesResponse
  valuesBatchResp : String → List BatchDataItem → BatchValuesResponse
  sheetBatchResp : String → AddSheetRequest → SheetBatchResponse

/-- The single configuration tunable: `MAX_RESPONSE_SIZE`, parsed from
the environment with documented default 30000. -/
structure ClientConfig where
  maxResponseSize : Nat
deriving DecidableEq, Repr

/-! ## Access Layer operations -/

/-- `SpreadsheetClient.getSpreadsheetInfo`: one metadata fetch with field
projection, then pure shaping with falsy-coalescing defaults. -/
def getSpreadsheetInfo (env : RemoteEnv) (spreadsheetId : String) :
    SpreadsheetInfo × List RemoteCall :=
  (formatSpreadsheet spreadsheetId (env.getResp spreadsheetId),
    [RemoteCall.getInfo spreadsheetId])

/-- `SpreadsheetClient.validateSheetExists` (the pure branch: every call
site passes an already-fetched `SpreadsheetInfo`): exact, case-sensitive
title lookup. -/
def validateSheetExists (spreadsheetInfo : SpreadsheetInfo) (sheetName : String) :
    Except String Unit :=
  if spreadsheetInfo.sheets.any (fun sheet => sheet.title = sheetName) then .ok ()
  else .error ("Sheet \"" ++ sheetName ++ "\" does not exist in this spreadsheet")

/-- `SpreadsheetClient.prepareSheetRange`: fetch the snapshot, validate
the sheet exists, build the qualified range, validate its A1 part. -/
def prepareSheetRange (env : RemoteEnv) (spreadsheetId sheetName : String)
    (range : Option String) : Except String String × List RemoteCall :=
  let (spreadsheetInfo, trace) := getSpreadsheetInfo env spreadsheetId
  match validateSheetExists spreadsheetInfo sheetName with
  | .error e => (.error e, trace)
  | .ok () =>
    let fullRange := buildFullRange sheetName range
    match validateA1 fullRange with
    | .error e => (.error e, trace)
    | .ok () => (.ok fullRange, trace)

/-- `SpreadsheetClient.getSheetValues`: prepare the range, issue the
remote read, default a missing `values` to `[]`, then fail when the
serialized response exceeds `MAX_RESPONSE_SIZE`. -/
def getSheetValues (cfg : ClientConfig) (env : RemoteEnv)
    (spreadsheetId sheetName : String) (range : Option String) :
    Except String (List (List CellValue)) × List RemoteCall :=
  match prepareSheetRange env spreadsheetId sheetName range with
  | (.error e, trace) => (.error e, trace)
  | (.ok fullRange, trace) =>
    let trace := trace ++ [RemoteCall.valuesGet spreadsheetId fullRange]
    let values := (env.valuesGetResp spreadsheetId fullRange).getD []
    let responseSize := (jsonStringifyMatrix values).length
    if responseSize > cfg.maxResponseSize then
      (.error ("Response size (" ++ toString responseSize
        ++ " characters) exceeds the maximum allowed size. Please specify a smaller range."),
       trace)
    else (.ok values, trace)

/-- The `{ updatedRows, updatedCells }` outcome of a single-range write. -/
structure UpdateOutcome where
  updatedRows : Int
  updatedCells : Int
deriving DecidableEq, Repr

/-- `SpreadsheetClient.updateCellValues`: prepare the range, issue the
remote update with USER_ENTERED interpretation, `||`-default the counts. -/
def updateCellValues (env : RemoteEnv) (spreadsheetId sheetName range : String)
    (values : List JsRow) : Except String UpdateOutcome × List RemoteCall :=
  match prepareSheetRange env spreadsheetId sheetName (some range) with
  | (.error e, trace) => (.error e, trace)
  | (.ok fullRange, trace) =>
    let response := env.valuesUpdateResp spreadsheetId fullRange values
    (.ok { updatedRows := intOr response.updatedRows 0
           updatedCells := intOr response.updatedCells 0 },
     trace ++ [RemoteCall.valuesUpdate spreadsheetId fullRange values])

/-- One element of the `updates` argument of `batchUpdateCellValues`. -/
structure UpdateRequest where
  sheetName : String
  range : String
  values : List JsRow
deriving DecidableEq, Repr

/-- The `{ totalUpdatedCells, totalUpdatedColumns, totalUpdatedRows }`
outcome of a batch write. -/
structure BatchOutcome where
  totalUpdatedCells : Int
  totalUpdatedColumns : Int
  totalUpdatedRows : Int
deriving DecidableEq, Repr

/-- `[...new Set(xs)]`: deduplication preserving first-occurrence order. -/
def dedupFirst : List String → List String
  | [] => []
  | x :: xs => x :: dedupFirst (xs.filter (fun y => y ≠ x))
termination_by l => l.length
decreasing_by
  exact Nat.lt_succ_of_le (Nat.le_trans (List.length_filter_le _ _) (Nat.le_refl _))

/-- The `for (const sheetName of sheetNames)` validation loop of
`batchUpdateCellValues`: the first missing sheet aborts the loop. -/
def validateSheetsLoop (spreadsheetInfo : SpreadsheetInfo) :
    List String → Except String Unit
  | [] => .ok ()
  | sheetName :: rest =>
    match validateSheetExists spreadsheetInfo sheetName with
    | .error e => .error e
    | .ok () => validateSheetsLoop spreadsheetInfo rest

/-- The `updates.map(...)` of `batchUpdateCellValues`: build and validate
each qualified range in order; a thrown validation error aborts the map
before any later update is processed. -/
def buildBatchData : List UpdateRequest → Except String (List BatchDataItem)
  | [] => .ok []
  | update :: rest =>
    let fullRange := buildFullRange update.sheetName (some update.range)
    match validateA1 fullRange with
    | .error e => .error e
    | .ok () =>
      match buildBatchData rest with
      | .error e => .error e
      | .ok data => .ok ({ range := fullRange, values := update.values } :: data)

/-- `SpreadsheetClient.batchUpdateCellValues`: collect the distinct sheet
names, fetch the snapshot once, validate every sheet, build and validate
every range, then issue a single `values.batchUpdate` call. -/
def batchUpdateCellValues (env : RemoteEnv) (spreadsheetId : String)
    (updates : List UpdateRequest) : Except String BatchOutcome × List RemoteCall :=
  let sheetNames := dedupFirst (updates.map (fun update => update.sheetName))
  let (spreadsheetInfo, trace) := getSpreadsheetInfo env spreadsheetId
  match validateSheetsLoop spreadsheetInfo sheetNames with
  | .error e => (.error e, trace)
  | .ok () =>
    match buildBatchData updates with
    | .error e => (.error e, trace)
    | .ok data =>
      let response := env.valuesBatchResp spreadsheetId data
      (.ok { totalUpdatedCells := intOr response.totalUpdatedCells 0
             totalUpdatedColumns := intOr response.totalUpdatedColumns 0
             totalUpdatedRows := intOr response.totalUpdatedRows 0 },
       trace ++ [RemoteCall.valuesBatchUpdate spreadsheetId data])

/-- The optional `{ rowCount?, columnCount? }` argument of `addSheet`. -/
structure AddSheetOptions where
  rowCount : Option Int
  columnCount : Option Int
deriving DecidableEq, Repr

/-- `SpreadsheetClient.addSheet`. Defaults coalesce falsy values
(`options?.rowCount || 1000`, `options?.columnCount || 26`). After the
mutation, `response.data.replies?.[0].addSheet?.properties` is read: if
`replies` is absent the whole optional chain is `undefined` and the
named error is thrown; if `replies` is present but empty, `replies[0]`
is `undefined` and the following plain `.addSheet` access throws a
TypeError (modelled with the V8 message text); if the first reply's
`addSheet?.properties` chain is `undefined`, the named error is thrown;
otherwise the descriptor is shaped from the reply with `||`-defaults. -/
def addSheet (env : RemoteEnv) (spreadsheetId sheetTitle : String)
    (options : Option AddSheetOptions) : Except String SheetInfo × List RemoteCall :=
  let rowCount := intOr (options.bind (fun o => o.rowCount)) 1000
  let columnCount := intOr (options.bind (fun o => o.columnCount)) 26
  let (spreadsheetInfo, trace) := getSpreadsheetInfo env spreadsheetId
  if spreadsheetInfo.sheets.any (fun sheet => sheet.title = sheetTitle) then
    (.error ("Sheet with title \"" ++ sheetTitle ++ "\" already exists in this spreadsheet"),
     trace)
  else
    let request : AddSheetRequest :=
      { title := sheetTitle, rowCount := rowCount, columnCount := columnCount }
    let response := env.sheetBatchResp spreadsheetId request
    let trace := trace ++ [RemoteCall.sheetBatchUpdate spreadsheetId request]
    match response.replies with
    | none => (.error "Failed to retrieve created sheet properties", trace)
    | some replies =>
      match replies with
      | [] => (.error "Cannot read properties of undefined (reading 'addSheet')", trace)
      | reply :: _ =>
        match reply.addSheet.bind (fun a => a.properties) with
        | none => (.error "Failed to retrieve created sheet properties", trace)
        | some createdSheet =>
          (.ok { title := strOr createdSheet.title sheetTitle
                 sheetId := intOr createdSheet.sheetId 0
                 rowCount := intOr (createdSheet.gridProperties.bind (fun g => g.rowCount)) rowCount
                 columnCount := intOr (createdSheet.gridProperties.bind (fun g => g.columnCount)) columnCount },
           trace)

/-! ## Identifier Resolver (`src/utils/url-parser.ts`) -/

/-- Membership in the ID alphabet `[a-zA-Z0-9-_]`. -/
def idChar (c : Char) : Bool :=
  ('a' ≤ c && c ≤ 'z') || ('A' ≤ c && c ≤ 'Z') || ('0' ≤ c && c ≤ '9') || c = '-' || c = '_'

/-- The literal part shared by both URL patterns,
`https://docs.google.com/spreadsheets/d/`. -/
def urlStem : String :=
  "https://docs.google.com/spreadsheets/d/"

/-- Whether `cs` starts with the pattern literal `stem`. -/
def leadsWith : List Char → List Char → Bool
  | [], _ => true
  | _ :: _, [] => false
  | p :: ps, c :: cs => p = c && leadsWith ps cs

/-- A match attempt of the first pattern
`https:\/\/docs\.google\.com\/spreadsheets\/d\/([a-zA-Z0-9-_]+)(?:\/|$|\?)`
at one position: the literal, then the captured ID run, then either the
end of input or a `/` or `?`. The capture alphabet excludes `/` and `?`,
so the greedy `+` can only match the maximal run and no backtracking can
ever repair a failed boundary; the attempt therefore succeeds exactly
when the maximal run is non-empty and the boundary holds after it. -/
def urlMatch1At (cs : List Char) : Option (List Char) :=
  if leadsWith urlStem.data cs then
    let rest := cs.drop urlStem.data.length
    let run := rest.takeWhile idChar
    let after := rest.dropWhile idChar
    if !run.isEmpty && (after.isEmpty || after.head? = some '/' || after.head? = some '?') then
      some run
    else none
  else none

/-- A match attempt of the second pattern (the first without the
trailing-boundary group) at one position. -/
def urlMatch2At (cs : List Char) : Option (List Char) :=
  if leadsWith urlStem.data cs then
    let run := (cs.drop urlStem.data.length).takeWhile idChar
    if !run.isEmpty then some run else none
  else none

/-- `String.prototype.match` with the first (unanchored) pattern:
attempt the match at each position from the left; the first position
with a successful attempt wins. -/
def findUrlMatch1 : List Char → Option (List Char)
  | [] => none
  | c :: cs =>
    match urlMatch1At (c :: cs) with
    | some run => some run
    | none => findUrlMatch1 cs

/-- `String.prototype.match` with the second (unanchored) pattern. -/
def findUrlMatch2 : List Char → Option (List Char)
  | [] => none
  | c :: cs =>
    match urlMatch2At (c :: cs) with
    | some run => some run
    | none => findUrlMatch2 cs

/-- The third pattern `/^([a-zA-Z0-9-_]+)$/`: anchored, so it accepts
exactly the non-empty all-ID-alphabet inputs, capturing the whole input. -/
def bareIdMatch (cs : List Char) : Bool :=
  !cs.isEmpty && cs.all idChar

/-- `extractSpreadsheetId`: try the three patterns in order and return
the first capture; throw when none matches. -/
def extractSpreadsheetId (url : String) : Except String String :=
  match findUrlMatch1 url.data with
  | some run => .ok (String.mk run)
  | none =>
    match findUrlMatch2 url.data with
    | some run => .ok (String.mk run)
    | none =>
      if bareIdMatch url.data then .ok url
      else .error "Invalid Google Spreadsheet URL or ID"

/-! ## Tool layer (`update_cells`, `batch_update_cells`) -/

/-- The `{ content: [{ type: "text", text }], isError? }` result a tool
returns; `isError` is absent on success, modelled as `false`. -/
structure ToolResult where
  text : String
  isError : Bool
deriving DecidableEq, Repr

/-- `!Array.isArray(row) || row.length === 0`: a row that is not an
array or is an empty array. -/
def rowBad (row : JsRow) : Bool :=
  match row with
  | .nonArr => true
  | .arr cells => cells.isEmpty

/-- The row-shape error of `UpdateCellsTool.execute`:
`args.values.some((row) => !Array.isArray(row) || row.length === 0)`. -/
def hasEmptyRows (rows : List JsRow) : Bool :=
  rows.any rowBad

/-- The shape validation of `UpdateCellsTool.execute` (the injected-
client variant with the empty-row check): returns the thrown message,
if any. The messages are fixed strings that do not mention the range. -/
def updateValuesShapeError (values : JsMatrix) : Option String :=
  match values with
  | .nonArr => some "Values must be a non-empty 2D array"
  | .arr rows =>
    if rows.isEmpty then some "Values must be a non-empty 2D array"
    else if hasEmptyRows rows then some "Each row in values must be a non-empty array"
    else none

/-- The success message of `update_cells`. -/
def updateCellsMessage (outcome : UpdateOutcome) (sheetName range : String)
    (values : JsMatrix) : String :=
  "Successfully updated " ++ toString outcome.updatedCells ++ " cells across "
    ++ toString outcome.updatedRows ++ " rows in sheet \"" ++ sheetName
    ++ "\" at range \"" ++ range ++ "\".\n\nValues updated: "
    ++ jsonStringifyMatrixPretty values

/-- `UpdateCellsTool.execute`: extract the ID, validate the shape of
`values`, call the Access Layer, render the outcome; every thrown error
is rendered as `Error: <message>` with `isError` set. -/
def updateCellsExecute (env : RemoteEnv) (spreadsheetUrl sheetName range : String)
    (values : JsMatrix) : ToolResult × List RemoteCall :=
  match extractSpreadsheetId spreadsheetUrl with
  | .error e => ({ text := "Error: " ++ e, isError := true }, [])
  | .ok spreadsheetId =>
    match updateValuesShapeError values with
    | some msg => ({ text := "Error: " ++ msg, isError := true }, [])
    | none =>
      let rows := match values with | .arr rows => rows | .nonArr => []
      match updateCellValues env spreadsheetId sheetName range rows with
      | (.error e, trace) => ({ text := "Error: " ++ e, isError := true }, trace)
      | (.ok outcome, trace) =>
        ({ text := updateCellsMessage outcome sheetName range values, isError := false }, trace)

/-- One element of the `updates` argument of `batch_update_cells`. -/
structure BatchToolUpdate where
  sheetName : String
  range : String
  values : JsMatrix
deriving DecidableEq, Repr

/-- The inner row loop of `BatchUpdateCellsTool.execute`: the first
offending row determines the thrown message, which names the update's
range. -/
def batchRowsError (range : String) : List JsRow → Option String
  | [] => none
  | .nonArr :: _ => some ("Each row for range " ++ range ++ " must be an array")
  | .arr [] :: _ => some ("Each row for range " ++ range ++ " must be a non-empty array")
  | .arr (_ :: _) :: rest => batchRowsError range rest

/-- The per-update shape validation of `BatchUpdateCellsTool.execute`. -/
def batchUpdateShapeError (update : BatchToolUpdate) : Option String :=
  match update.values with
  | .nonArr => some ("Values for range " ++ update.range ++ " must be a non-empty 2D array")
  | .arr rows =>
    if rows.isEmpty then
      some ("Values for range " ++ update.range ++ " must be a non-empty 2D array")
    else batchRowsError update.range rows

/-- The `for (const update of args.updates)` validation loop: the first
offending update determines the thrown message. -/
def firstBatchShapeError : List BatchToolUpdate → Option String
  | [] => none
  | update :: rest =>
    match batchUpdateShapeError update with
    | some msg => some msg
    | none => firstBatchShapeError rest

/-- One line of the `batch_update_cells` success message. -/
def batchUpdateLine (update : BatchToolUpdate) : String :=
  "- Sheet: \"" ++ update.sheetName ++ "\", Range: \"" ++ update.range
    ++ "\", Values: " ++ jsonStringifyJsMatrix update.values

/-- The success message of `batch_update_cells`. -/
def batchUpdateMessage (outcome : BatchOutcome) (updates : List BatchToolUpdate) : String :=
  "Successfully updated " ++ toString outcome.totalUpdatedCells ++ " cells across "
    ++ toString outcome.totalUpdatedRows ++ " rows.\n\nUpdates performed:\n"
    ++ String.intercalate "\n" (updates.map batchUpdateLine)

/-- The conversion from validated tool updates to Access Layer updates
(after validation every `values` is a 2D array). -/
def toUpdateRequest (update : BatchToolUpdate) : UpdateRequest :=
  { sheetName := update.sheetName
    range := update.range
    values := match update.values with | .arr rows => rows | .nonArr => [] }

/-- `BatchUpdateCellsTool.execute`: extract the ID, reject an empty
updates array, validate every update's values shape, then call the
Access Layer batch write and render the outcome. -/
def batchUpdateCellsExecute (env : RemoteEnv) (spreadsheetUrl : String)
    (updates : List BatchToolUpdate) : ToolResult × List RemoteCall :=
  match extractSpreadsheetId spreadsheetUrl with
  | .error e => ({ text := "Error: " ++ e, isError := true }, [])
  | .ok spreadsheetId =>
    if updates.isEmpty then
      ({ text := "Error: Updates must be a non-empty array", isError := true }, [])
    else
      match firstBatchShapeError updates with
      | some msg => ({ text := "Error: " ++ msg, isError := true }, [])
      | none =>
        match batchUpdateCellValues env spreadsheetId (updates.map toUpdateRequest) with
        | (.error e, trace) => ({ text := "Error: " ++ e, isError := true }, trace)
        | (.ok outcome, trace) =>
          ({ text := batchUpdateMessage outcome updates, isError := false }, trace)

/-! ## Helper lemmas about runs of characters -/

/-- Every element kept by `takeWhile` satisfies the predicate. -/
theorem all_takeWhile (p : Char → Bool) : ∀ l : List Char, (l.takeWhile p).all p = true := by
  intro l
  induction l with
  | nil => rfl
  | cons c cs ih =>
    by_cases h : p c
    · simp [List.takeWhile_cons, h, ih]
    · simp [List.takeWhile_cons, h]

/-- `takeWhile` over an append whose front wholly satisfies the
predicate consumes the front. -/
theorem takeWhile_all_append (p : Char → Bool) (u d : List Char) (hu : u.all p = true) :
    (u ++ d).takeWhile p = u ++ d.takeWhile p := by
  induction u with
  | nil => simp
  | cons c cs ih =>
    simp only [List.all_cons, Bool.and_eq_true] at hu
    simp [List.takeWhile_cons, hu.1, ih hu.2]

/-- `dropWhile` over an append whose front wholly satisfies the
predicate skips the front. -/
theorem dropWhile_all_append (p : Char → Bool) (u d : List Char) (hu : u.all p = true) :
    (u ++ d).dropWhile p = d.dropWhile p := by
  induction u with
  | nil => simp
  | cons c cs ih =>
    simp only [List.all_cons, Bool.and_eq_true] at hu
    simp [List.dropWhile_cons, hu.1, ih hu.2]

/-- `dropWhile` leaves a list whose head fails the predicate. -/
theorem dropWhile_stop (p : Char → Bool) (d : List Char)
    (hd : d = [] ∨ ∃ c cs, d = c :: cs ∧ p c = false) : d.dropWhile p = d := by
  rcases hd with h | ⟨c, cs, h, hc⟩
  · simp [h]
  · simp [h, List.dropWhile_cons, hc]

/-- `takeWhile` takes nothing from a list whose head fails the predicate. -/
theorem takeWhile_stop (p : Char → Bool) (d : List Char)
    (hd : d = [] ∨ ∃ c cs, d = c :: cs ∧ p c = false) : d.takeWhile p = [] := by
  rcases hd with h | ⟨c, cs, h, hc⟩
  · simp [h]
  · simp [h, List.takeWhile_cons, hc]

/-! ## The A1 patterns, stated as the spec states them -/

/-- The single-cell form `[A-Z]+[0-9]+`: a non-empty run of uppercase
letters followed by a non-empty run of digits. -/
def MatchesCellForm (cs : List Char) : Prop :=
  ∃ u d : List Char,
    cs = u ++ d ∧ u ≠ [] ∧ u.all isUpperAZ = true ∧ d ≠ [] ∧ d.all isDigit09 = true

/-- The rectangular form `[A-Z]+[0-9]+:[A-Z]+[0-9]+`: two single-cell
forms joined by a colon. -/
def MatchesRangeForm (cs : List Char) : Prop :=
  ∃ a b : List Char, cs = a ++ ':' :: b ∧ MatchesCellForm a ∧ MatchesCellForm b

/-- A digit is not an uppercase letter (`'9' < 'A'`). -/
theorem digit_not_upper {c : Char} (h : isDigit09 c = true) : isUpperAZ c = false := by
  simp only [isDigit09, Bool.and_eq_true, decide_eq_true_eq] at h
  simp only [isUpperAZ, Bool.and_eq_false_iff, decide_eq_false_iff_not]
  left
  exact not_le.mpr (lt_of_le_of_lt h.2 (by decide))

/-- Neither character class of a cell reference contains `:`. -/
theorem cellForm_no_colon {cs : List Char} (h : MatchesCellForm cs) :
    cs.all (fun c => c ≠ ':') = true := by
  rcases h with ⟨u, d, rfl, -, hu, -, hd⟩
  simp only [List.all_append, Bool.and_eq_true]
  refine ⟨?_, ?_⟩
  · refine List.all_eq_true.mpr fun c hc => ?_
    have := List.all_eq_true.mp hu c hc
    simp only [isUpperAZ, Bool.and_eq_true, decide_eq_true_eq] at this
    simp only [ne_eq, decide_eq_true_eq]
    intro hcolon
    exact absurd this.1 (by rw [hcolon]; decide)
  · refine List.all_eq_true.mpr fun c hc => ?_
    have := List.all_eq_true.mp hd c hc
    simp only [isDigit09, Bool.and_eq_true, decide_eq_true_eq] at this
    simp only [ne_eq, decide_eq_true_eq]
    intro hcolon
    exact absurd this.2 (by rw [hcolon]; decide)

/-- The implementation of `^[A-Z]+[0-9]+$` agrees with the form the
spec describes. -/
theorem isCellRefChars_iff (cs : List Char) :
    isCellRefChars cs = true ↔ MatchesCellForm cs := by
  constructor
  · intro h
    simp only [isCellRefChars, Bool.and_eq_true, Bool.not_eq_true',
      List.isEmpty_eq_false] at h
    exact ⟨cs.takeWhile isUpperAZ, cs.dropWhile isUpperAZ,
      (List.takeWhile_append_dropWhile isUpperAZ cs).symm, h.1.1, all_takeWhile _ cs,
      h.1.2, h.2⟩
  · rintro ⟨u, d, rfl, hun, hu, hdn, hd⟩
    have hdstop : d = [] ∨ ∃ c cs, d = c :: cs ∧ isUpperAZ c = false := by
      cases d with
      | nil => exact Or.inl rfl
      | cons c cs =>
        refine Or.inr ⟨c, cs, rfl, digit_not_upper ?_⟩
        exact List.all_eq_true.mp hd c (List.mem_cons_self c cs)
    simp only [isCellRefChars, Bool.and_eq_true, Bool.not_eq_true', List.isEmpty_eq_false]
    rw [takeWhile_all_append _ _ _ hu, dropWhile_all_append _ _ _ hu,
      takeWhile_stop _ _ hdstop, dropWhile_stop _ _ hdstop]
    exact ⟨⟨by simp [hun], hdn⟩, hd⟩

/-- The implementation of `^[A-Z]+[0-9]+:[A-Z]+[0-9]+$` agrees with the
form the spec describes. -/
theorem isRangeRefChars_iff (cs : List Char) :
    isRangeRefChars cs = true ↔ MatchesRangeForm cs := by
  constructor
  · intro h
    simp only [isRangeRefChars] at h
    cases hdw : cs.dropWhile (fun c => c ≠ ':') with
    | nil => rw [hdw] at h; exact absurd h (by simp)
    | cons c rest =>
      rw [hdw] at h
      have hc : c = ':' := by
        have := List.head?_dropWhile_not (fun c => c ≠ ':') cs
        rw [hdw] at this
        simpa using this
      subst hc
      simp only [Bool.and_eq_true] at h
      exact ⟨cs.takeWhile (fun c => c ≠ ':'), rest,
        by rw [← hdw]; exact (List.takeWhile_append_dropWhile _ cs).symm,
        (isCellRefChars_iff _).mp h.1, (isCellRefChars_iff _).mp h.2⟩
  · rintro ⟨a, b, rfl, ha, hb⟩
    have hano : a.all (fun c => c ≠ ':') = true := cellForm_no_colon ha
    have hstop : (':' :: b) = [] ∨ ∃ c cs, (':' :: b) = c :: cs ∧ decide (c ≠ ':') = false :=
      Or.inr ⟨':', b, rfl, by simp⟩
    simp only [isRangeRefChars]
    rw [takeWhile_all_append _ _ _ hano, dropWhile_all_append _ _ _ hano,
      takeWhile_stop _ _ hstop, dropWhile_stop _ _ hstop]
    simp only [List.append_nil, Bool.and_eq_true]
    exact ⟨(isCellRefChars_iff a).mpr ha, (isCellRefChars_iff b).mpr hb⟩

/-- A cell form contains no colon, hence fails `contains ':'`. -/
theorem cellForm_not_contains_colon {cs : List Char} (h : MatchesCellForm cs) :
    cs.contains ':' = false := by
  have hall := cellForm_no_colon h
  simp only [List.all_eq_true, ne_eq, decide_eq_true_eq] at hall
  by_contra hne
  have hmem : ':' ∈ cs := by
    have := Bool.not_eq_false _ |>.mp hne
    simpa [List.contains, List.elem_iff] using this
  exact hall ':' hmem rfl

/-- The implementation of `isValidRange` agrees with the disjunction of
the two A1 forms the spec describes. -/
theorem isValidRange_iff (range : String) :
    isValidRange range = true ↔ MatchesCellForm range.data ∨ MatchesRangeForm range.data := by
  unfold isValidRange
  cases hcell : isCellRefChars range.data with
  | true =>
    have := (isCellRefChars_iff range.data).mp hcell
    simp [this]
  | false =>
    have hnc : ¬ MatchesCellForm range.data := fun h => by
      simp [(isCellRefChars_iff range.data).mpr h] at hcell
    cases hcolon : range.data.contains ':' with
    | true => simp [hcolon, isRangeRefChars_iff, hnc]
    | false =>
      have hnr : ¬ MatchesRangeForm range.data := by
        rintro ⟨a, b, heq, -, -⟩
        have hmem : ':' ∈ range.data := by
          rw [heq]; exact List.mem_append_right a (List.mem_cons_self ':' b)
        have hcontains : range.data.contains ':' = true := by
          simpa [List.contains, List.elem_iff] using hmem
        rw [hcontains] at hcolon
        exact absurd hcolon (by simp)
      simp [hcolon, hnc, hnr]

deriving instance DecidableEq for Except

/-- `List.contains` on characters decides membership. -/
theorem contains_eq_true_iff (cs : List Char) (c : Char) :
    cs.contains c = true ↔ c ∈ cs := by
  rw [show cs.contains c = cs.elem c from rfl]
  exact List.elem_iff

/-- `List.contains` on characters refutes membership. -/
theorem contains_eq_false_iff (cs : List Char) (c : Char) :
    cs.contains c = false ↔ c ∉ cs := by
  constructor
  · intro h hm
    rw [(contains_eq_true_iff cs c).mpr hm] at h
    exact absurd h (by simp)
  · intro h
    cases hc : cs.contains c with
    | false => rfl
    | true => exact absurd ((contains_eq_true_iff cs c).mp hc) h

/-- Whether `pat` occurs as a contiguous substring. -/
def occursIn (pat : List Char) : List Char → Bool
  | [] => pat.isEmpty
  | c :: rest => leadsWith pat (c :: rest) || occursIn pat rest

/-- `validateA1` on a string containing `!` accepts exactly when the
segment between the first and second `!` is empty or matches one of the
two A1 forms. -/
theorem validateA1_ok_iff (a1 : String) (hbang : a1.data.contains '!' = true) :
    validateA1 a1 = .ok () ↔
      (subRangeAfterBang a1 = "" ∨ MatchesCellForm (subRangeAfterBang a1).data
        ∨ MatchesRangeForm (subRangeAfterBang a1).data) := by
  unfold validateA1
  rw [hbang]
  by_cases hr : subRangeAfterBang a1 = ""
  · simp [hr]
  · cases hv : isValidRange (subRangeAfterBang a1) with
    | true =>
      have := (isValidRange_iff _).mp hv
      simp [hr, hv, this]
    | false =>
      have : ¬ (MatchesCellForm (subRangeAfterBang a1).data
          ∨ MatchesRangeForm (subRangeAfterBang a1).data) := fun h => by
        rw [(isValidRange_iff _).mpr h] at hv
        exact absurd hv (by simp)
      simp [hr, hv, this]

/-- `prepareSheetRange` only ever issues the single metadata fetch. -/
theorem prepareSheetRange_trace (env : RemoteEnv) (spreadsheetId sheetName : String)
    (range : Option String) :
    (prepareSheetRange env spreadsheetId sheetName range).2 =
      [RemoteCall.getInfo spreadsheetId] := by
  unfold prepareSheetRange getSpreadsheetInfo
  cases h1 : validateSheetExists (formatSpreadsheet spreadsheetId
      (env.getResp spreadsheetId)) sheetName with
  | error e => simp [h1]
  | ok u =>
    cases u
    cases h2 : validateA1 (buildFullRange sheetName range) with
    | error e => simp [h1, h2]
    | ok u2 => cases u2; simp [h1, h2]

/-- C2 counterexample. The claim predicts an `InvalidRange` failure for
every qualified range containing `!` whose remainder after `!` matches
neither A1 form; the code accepts `"Foo!"` (empty segment skipped by JS
truthiness), accepts `"S!A1!x"` (only the segment between the first and
second `!` is validated, not the whole remainder `"A1!x"`), and builds
the bare title rather than `"Sheet1!"` for a present-but-empty raw
range. -/
theorem a1_validation_counterexample :
    validateA1 "Foo!" = .ok () ∧
    "Foo!".data.contains '!' = true ∧
    subRangeAfterBang "Foo!" = "" ∧
    isValidRange "" = false ∧
    validateA1 "S!A1!x" = .ok () ∧
    isValidRange "A1!x" = false ∧
    buildFullRange "Sheet1" (some "") = "Sheet1" ∧
    "Sheet1" ≠ "Sheet1" ++ "!" ++ "" := by
  decide

/-- C2 amended: the qualified range is the raw range verbatim when it
contains `!`, `sheetTitle!rawRange` when the raw range is present and
non-empty without `!`, and the bare sheet title when the raw range is
absent or empty; when the result contains `!`, validation fails with
`InvalidRange` exactly unless the segment between the first and second
`!` is empty or matches the single-cell or rectangular A1 form; range
preparation never issues any remote call beyond the metadata fetch. -/
theorem rangeBuild_amended :
    (∀ title : String, buildFullRange title none = title) ∧
    (∀ title : String, buildFullRange title (some "") = title) ∧
    (∀ title r : String, r ≠ "" → r.data.contains '!' = false →
      buildFullRange title (some r) = title ++ "!" ++ r) ∧
    (∀ title r : String, r.data.contains '!' = true → buildFullRange title (some r) = r) ∧
    (∀ q : String, q.data.contains '!' = true →
      (validateA1 q = .ok () ↔
        (subRangeAfterBang q = "" ∨ MatchesCellForm (subRangeAfterBang q).data
          ∨ MatchesRangeForm (subRangeAfterBang q).data))) ∧
    (∀ q : String, q.data.contains '!' = false → validateA1 q = .ok ()) ∧
    (isValidRange "A1" = true ∧ isValidRange "A1:B2" = true ∧ isValidRange "1A" = false ∧
      isValidRange "A1:B" = false ∧ isValidRange "A:B1" = false) ∧
    (∀ env spreadsheetId sheetName range,
      (prepareSheetRange env spreadsheetId sheetName range).2 =
        [RemoteCall.getInfo spreadsheetId]) := by
  refine ⟨fun _ => rfl, fun _ => rfl, ?_, ?_, validateA1_ok_iff, ?_, by decide,
    prepareSheetRange_trace⟩
  · intro title r hne hbang
    have hmem := (contains_eq_false_iff r.data '!').mp hbang
    simp [buildFullRange, hne, hmem]
  · intro title r hbang
    have hne : r ≠ "" := by
      intro h
      rw [h] at hbang
      exact absurd hbang (by decide)
    have hmem := (contains_eq_true_iff r.data '!').mp hbang
    simp [buildFullRange, hne, hmem]
  · intro q hbang
    unfold validateA1
    rw [hbang]
    simp

/-- Witness for the amended C2 statement at concrete inputs. -/
theorem rangeBuild_amended_witness :
    buildFullRange "Sheet1" (some "A1:B2") = "Sheet1!A1:B2" ∧
    buildFullRange "Sheet1" (some "Other!C3") = "Other!C3" ∧
    validateA1 "Sheet1!A1" = .ok () ∧
    validateA1 "Sheet1" = .ok () := by
  refine ⟨rangeBuild_amended.2.2.1 "Sheet1" "A1:B2" (by decide) (by decide),
    rangeBuild_amended.2.2.2.1 "Sheet1" "Other!C3" (by decide),
    (rangeBuild_amended.2.2.2.2.1 "Sheet1!A1" (by decide)).mpr
      (Or.inr (Or.inl ⟨['A'], ['1'], by decide, by decide, by decide, by decide, by decide⟩)),
    rangeBuild_amended.2.2.2.2.2.1 "Sheet1" (by decide)⟩

/-! ## Concrete environments used by witnesses and counterexamples -/

/-- A remote authority whose metadata response carries no sheets and
whose other responses are all empty. -/
def baseEnv : RemoteEnv :=
  { getResp := fun _ => { properties := none, sheets := none }
    valuesGetResp := fun _ _ => none
    valuesUpdateResp := fun _ _ _ => { updatedRows := none, updatedCells := none }
    valuesBatchResp := fun _ _ =>
      { totalUpdatedCells := none, totalUpdatedColumns := none, totalUpdatedRows := none }
    sheetBatchResp := fun _ _ => { replies := none } }

/-- A metadata response with a single sheet titled `Sheet1`. -/
def sheet1Raw : RawSpreadsheet :=
  { properties := some { title := some "Test Spreadsheet" }
    sheets := some
      [{ properties := some
          { title := some "Sheet1"
            sheetId := some 0
            gridProperties := some { rowCount := some 100, columnCount := some 20 } } }] }

/-- A remote authority knowing only the sheet `Sheet1`. -/
def sheet1Env : RemoteEnv :=
  { baseEnv with getResp := fun _ => sheet1Raw }

/-- C7: a read whose sheet name matches no descriptor title of the
freshly fetched snapshot fails with the `SheetNotFound` message, with
only the metadata fetch on the wire: no values-read call is issued. -/
theorem getSheetValues_sheetNotFound (cfg : ClientConfig) (env : RemoteEnv)
    (spreadsheetId sheetName : String) (range : Option String)
    (habs : (formatSpreadsheet spreadsheetId (env.getResp spreadsheetId)).sheets.any
      (fun sheet => sheet.title = sheetName) = false) :
    getSheetValues cfg env spreadsheetId sheetName range =
      (.error ("Sheet \"" ++ sheetName ++ "\" does not exist in this spreadsheet"),
       [RemoteCall.getInfo spreadsheetId]) := by
  unfold getSheetValues prepareSheetRange getSpreadsheetInfo validateSheetExists
  simp [habs]

/-- Witness for C7 at a concrete environment. -/
theorem getSheetValues_sheetNotFound_witness :
    getSheetValues { maxResponseSize := 30000 } baseEnv "id" "Missing" none =
      (.error ("Sheet \"" ++ "Missing" ++ "\" does not exist in this spreadsheet"),
       [RemoteCall.getInfo "id"]) :=
  getSheetValues_sheetNotFound { maxResponseSize := 30000 } baseEnv "id" "Missing" none
    (by decide)

/-- C8: adding a sheet whose title exactly matches a descriptor of the
fetched snapshot fails with the `SheetAlreadyExists` message, and the
trace shows no structural mutation call. -/
theorem addSheet_alreadyExists (env : RemoteEnv) (spreadsheetId sheetTitle : String)
    (options : Option AddSheetOptions)
    (hex : (formatSpreadsheet spreadsheetId (env.getResp spreadsheetId)).sheets.any
      (fun sheet => sheet.title = sheetTitle) = true) :
    addSheet env spreadsheetId sheetTitle options =
      (.error ("Sheet with title \"" ++ sheetTitle ++ "\" already exists in this spreadsheet"),
       [RemoteCall.getInfo spreadsheetId]) := by
  unfold addSheet getSpreadsheetInfo
  simp [hex]

/-- Witness for C8 at a concrete environment. -/
theorem addSheet_alreadyExists_witness :
    addSheet sheet1Env "id" "Sheet1" none =
      (.error ("Sheet with title \"" ++ "Sheet1" ++ "\" already exists in this spreadsheet"),
       [RemoteCall.getInfo "id"]) :=
  addSheet_alreadyExists sheet1Env "id" "Sheet1" none (by decide)

/-- C10: `options.rowCount = 0` and `options.columnCount = 0` are
coalesced like absent values, so the structural mutation is issued with
the defaults 1000 and 26. -/
theorem addSheet_zeroDefaults (env : RemoteEnv) (spreadsheetId sheetTitle : String)
    (habs : (formatSpreadsheet spreadsheetId (env.getResp spreadsheetId)).sheets.any
      (fun sheet => sheet.title = sheetTitle) = false) :
    (addSheet env spreadsheetId sheetTitle
      (some { rowCount := some 0, columnCount := some 0 })).2 =
      [RemoteCall.getInfo spreadsheetId,
       RemoteCall.sheetBatchUpdate spreadsheetId
         { title := sheetTitle, rowCount := 1000, columnCount := 26 }] := by
  unfold addSheet getSpreadsheetInfo
  simp only [habs, Bool.false_eq_true, if_false]
  have hrow : intOr ((some (AddSheetOptions.mk (some 0) (some 0))).bind
      (fun o => o.rowCount)) 1000 = 1000 := by decide
  have hcol : intOr ((some (AddSheetOptions.mk (some 0) (some 0))).bind
      (fun o => o.columnCount)) 26 = 26 := by decide
  rw [hrow, hcol]
  cases hrep : (env.sheetBatchResp spreadsheetId
      { title := sheetTitle, rowCount := 1000, columnCount := 26 }).replies with
  | none => simp [hrep]
  | some replies =>
    cases replies with
    | nil => simp [hrep]
    | cons reply rest =>
      cases hprops : reply.addSheet.bind (fun a => a.properties) with
      | none => simp [hrep, hprops]
      | some p => simp [hrep, hprops]

/-- Witness for C10 at a concrete environment. -/
theorem addSheet_zeroDefaults_witness :
    (addSheet baseEnv "id" "Q2" (some { rowCount := some 0, columnCount := some 0 })).2 =
      [RemoteCall.getInfo "id",
       RemoteCall.sheetBatchUpdate "id" { title := "Q2", rowCount := 1000, columnCount := 26 }] :=
  addSheet_zeroDefaults baseEnv "id" "Q2" (by decide)

/-- Deduplication preserves membership. -/
theorem mem_dedupFirst (a : String) : ∀ l : List String, a ∈ l → a ∈ dedupFirst l := by
  have key : ∀ (n : Nat) (l : List String), l.length ≤ n → a ∈ l → a ∈ dedupFirst l := by
    intro n
    induction n with
    | zero =>
      intro l hl hm
      cases l with
      | nil => cases hm
      | cons x xs => simp at hl
    | succ n ih =>
      intro l hl hm
      cases l with
      | nil => cases hm
      | cons x xs =>
        rw [show dedupFirst (x :: xs) = x :: dedupFirst (xs.filter (fun y => y ≠ x)) from by
          rw [dedupFirst]]
        rcases List.mem_cons.mp hm with rfl | hmem
        · exact List.mem_cons_self _ _
        · by_cases hax : a = x
          · subst hax
            exact List.mem_cons_self _ _
          · refine List.mem_cons_of_mem _ (ih _ ?_ ?_)
            · exact Nat.le_trans (List.length_filter_le _ _)
                (Nat.le_of_succ_le_succ (by simpa using hl))
            · exact List.mem_filter.mpr ⟨hmem, by simp [hax]⟩
  exact fun l => key l.length l (Nat.le_refl _)

/-- If the existence loop succeeds, every visited sheet name validated. -/
theorem validateSheetsLoop_ok_mem (info : SpreadsheetInfo) :
    ∀ ns : List String, validateSheetsLoop info ns = .ok () →
      ∀ n ∈ ns, validateSheetExists info n = .ok () := by
  intro ns
  induction ns with
  | nil => intro _ n hn; cases hn
  | cons m rest ih =>
    intro h n hn
    unfold validateSheetsLoop at h
    cases hv : validateSheetExists info m with
    | error e => rw [hv] at h; cases h
    | ok u =>
      cases u
      rw [hv] at h
      rcases List.mem_cons.mp hn with rfl | hmem
      · exact hv
      · exact ih h n hmem

/-- A single invalid range among the updates forces the range-building
map to abort with an error. -/
theorem buildBatchData_error_of_bad :
    ∀ updates : List UpdateRequest,
      (∃ u ∈ updates, validateA1 (buildFullRange u.sheetName (some u.range)) ≠ .ok ()) →
      ∃ e, buildBatchData updates = .error e := by
  intro updates
  induction updates with
  | nil => rintro ⟨u, hu, -⟩; cases hu
  | cons v rest ih =>
    rintro ⟨u, hu, hbad⟩
    cases hv : validateA1 (buildFullRange v.sheetName (some v.range)) with
    | error e => exact ⟨e, by simp [buildBatchData, hv]⟩
    | ok u0 =>
      cases u0
      rcases List.mem_cons.mp hu with rfl | hmem
      · exact absurd hv hbad
      · rcases ih ⟨u, hmem, hbad⟩ with ⟨e, he⟩
        exact ⟨e, by simp [buildBatchData, hv, he]⟩

/-- C1: a batch write in which some update names a sheet absent from the
fetched snapshot, or some update's qualified range fails A1 validation,
errors with only the metadata fetch on the wire — the values batch
update call (and any other write) is never issued. -/
theorem batchUpdateCellValues_failFast (env : RemoteEnv) (spreadsheetId : String)
    (updates : List UpdateRequest)
    (hbad :
      (∃ u ∈ updates,
        (formatSpreadsheet spreadsheetId (env.getResp spreadsheetId)).sheets.any
          (fun sheet => sheet.title = u.sheetName) = false) ∨
      (∃ u ∈ updates, validateA1 (buildFullRange u.sheetName (some u.range)) ≠ .ok ())) :
    ∃ e, batchUpdateCellValues env spreadsheetId updates =
      (.error e, [RemoteCall.getInfo spreadsheetId]) := by
  cases hloop : validateSheetsLoop (formatSpreadsheet spreadsheetId (env.getResp spreadsheetId))
      (dedupFirst (updates.map fun u => u.sheetName)) with
  | error e => exact ⟨e, by simp [batchUpdateCellValues, getSpreadsheetInfo, hloop]⟩
  | ok u =>
    cases u
    have hall := validateSheetsLoop_ok_mem _ _ hloop
    rcases hbad with ⟨u, hu, habs⟩ | hrange
    · exfalso
      have hmem : u.sheetName ∈ dedupFirst (updates.map fun v => v.sheetName) :=
        mem_dedupFirst _ _ (List.mem_map.mpr ⟨u, hu, rfl⟩)
      have hok := hall u.sheetName hmem
      unfold validateSheetExists at hok
      rw [habs] at hok
      cases hok
    · rcases buildBatchData_error_of_bad updates hrange with ⟨e, hbd⟩
      exact ⟨e, by simp [batchUpdateCellValues, getSpreadsheetInfo, hloop, hbd]⟩

/-- Witness for C1: a batch whose second update names a missing sheet,
while the first update is entirely valid. -/
theorem batchUpdateCellValues_failFast_witness :
    (∃ u ∈ [UpdateRequest.mk "Sheet1" "A1" [JsRow.arr [CellValue.num 1]],
            UpdateRequest.mk "Ghost" "A1" [JsRow.arr [CellValue.num 2]]],
      (formatSpreadsheet "id" (sheet1Env.getResp "id")).sheets.any
        (fun sheet => sheet.title = u.sheetName) = false) ∧
    ∃ e, batchUpdateCellValues sheet1Env "id"
        [UpdateRequest.mk "Sheet1" "A1" [JsRow.arr [CellValue.num 1]],
         UpdateRequest.mk "Ghost" "A1" [JsRow.arr [CellValue.num 2]]] =
      (.error e, [RemoteCall.getInfo "id"]) := by
  refine ⟨⟨UpdateRequest.mk "Ghost" "A1" [JsRow.arr [CellValue.num 2]], by decide, by decide⟩, ?_⟩
  exact batchUpdateCellValues_failFast sheet1Env "id" _
    (Or.inl ⟨UpdateRequest.mk "Ghost" "A1" [JsRow.arr [CellValue.num 2]], by decide, by decide⟩)

/-- C3 amended: after a successful range preparation, a read whose
serialized matrix exceeds the configured ceiling fails with the response
size message — which names the measured size only, not the ceiling — and
a read within the ceiling returns the matrix; either way exactly one
metadata fetch and one values read are issued. -/
theorem getSheetValues_sizeLimit (cfg : ClientConfig) (env : RemoteEnv)
    (spreadsheetId sheetName fullRange : String) (range : Option String)
    (hprep : (prepareSheetRange env spreadsheetId sheetName range).1 = .ok fullRange) :
    ((jsonStringifyMatrix ((env.valuesGetResp spreadsheetId fullRange).getD [])).length >
        cfg.maxResponseSize →
      getSheetValues cfg env spreadsheetId sheetName range =
        (.error ("Response size ("
          ++ toString (jsonStringifyMatrix
              ((env.valuesGetResp spreadsheetId fullRange).getD [])).length
          ++ " characters) exceeds the maximum allowed size. Please specify a smaller range."),
         [RemoteCall.getInfo spreadsheetId, RemoteCall.valuesGet spreadsheetId fullRange])) ∧
    ((jsonStringifyMatrix ((env.valuesGetResp spreadsheetId fullRange).getD [])).length ≤
        cfg.maxResponseSize →
      getSheetValues cfg env spreadsheetId sheetName range =
        (.ok ((env.valuesGetResp spreadsheetId fullRange).getD []),
         [RemoteCall.getInfo spreadsheetId, RemoteCall.valuesGet spreadsheetId fullRange])) := by
  have hpair : prepareSheetRange env spreadsheetId sheetName range =
      (Except.ok fullRange, [RemoteCall.getInfo spreadsheetId]) := by
    rw [← hprep, ← prepareSheetRange_trace env spreadsheetId sheetName range]
  constructor
  · intro hgt
    unfold getSheetValues
    rw [hpair]
    simp [hgt]
  · intro hle
    unfold getSheetValues
    rw [hpair]
    simp [Nat.not_lt.mpr hle]

/-- The over-limit matrix used by the C3 counterexample: one row with a
single 144-character string, serializing to exactly 150 characters. -/
def longRow : List (List CellValue) :=
  [[CellValue.str (String.mk (List.replicate 144 'a'))]]

/-- A remote authority returning the over-limit matrix for every read. -/
def longRowEnv : RemoteEnv :=
  { sheet1Env with valuesGetResp := fun _ _ => some longRow }

set_option maxRecDepth 100000 in
/-- C3 counterexample. With ceiling 100 and a matrix serializing to 150
characters the claim predicts a failure message citing both 150 and 100;
the code's message cites 150 but contains no occurrence of `100`. -/
theorem responseSize_counterexample :
    getSheetValues { maxResponseSize := 100 } longRowEnv "id" "Sheet1" none =
      (.error "Response size (150 characters) exceeds the maximum allowed size. Please specify a smaller range.",
       [RemoteCall.getInfo "id", RemoteCall.valuesGet "id" "Sheet1"]) ∧
    occursIn "150".data
      "Response size (150 characters) exceeds the maximum allowed size. Please specify a smaller range.".data = true ∧
    occursIn "100".data
      "Response size (150 characters) exceeds the maximum allowed size. Please specify a smaller range.".data = false := by
  decide

set_option maxRecDepth 100000 in
/-- Witness for the amended C3 statement: both sides of the ceiling at a
concrete environment. -/
theorem getSheetValues_sizeLimit_witness :
    getSheetValues { maxResponseSize := 149 } longRowEnv "id" "Sheet1" none =
      (.error ("Response size ("
        ++ toString (jsonStringifyMatrix
            ((longRowEnv.valuesGetResp "id" "Sheet1").getD [])).length
        ++ " characters) exceeds the maximum allowed size. Please specify a smaller range."),
       [RemoteCall.getInfo "id", RemoteCall.valuesGet "id" "Sheet1"]) ∧
    getSheetValues { maxResponseSize := 150 } longRowEnv "id" "Sheet1" none =
      (.ok longRow,
       [RemoteCall.getInfo "id", RemoteCall.valuesGet "id" "Sheet1"]) :=
  ⟨(getSheetValues_sizeLimit { maxResponseSize := 149 } longRowEnv "id" "Sheet1" "Sheet1" none
      (by decide)).1 (by decide),
   (getSheetValues_sizeLimit { maxResponseSize := 150 } longRowEnv "id" "Sheet1" "Sheet1" none
      (by decide)).2 (by decide)⟩

/-- A remote authority answering the structural mutation with a present
but empty `replies` array. -/
def emptyRepliesEnv : RemoteEnv :=
  { baseEnv with sheetBatchResp := fun _ _ => { replies := some [] } }

/-- C9 counterexample. A mutation response with `replies: []` does not
include the new sheet's properties, yet the operation does not fail with
the `SheetCreationFailed` message: `replies?.[0]` is `undefined` and the
following plain `.addSheet` access throws a generic TypeError. -/
theorem addSheet_emptyReplies_counterexample :
    addSheet emptyRepliesEnv "id" "Q2" none =
      (.error "Cannot read properties of undefined (reading 'addSheet')",
       [RemoteCall.getInfo "id",
        RemoteCall.sheetBatchUpdate "id" { title := "Q2", rowCount := 1000, columnCount := 26 }]) ∧
    "Cannot read properties of undefined (reading 'addSheet')" ≠
      "Failed to retrieve created sheet properties" := by
  decide

/-- C9 amended: with defaults unspecified and the title fresh, the
mutation is issued with rowCount 1000 and columnCount 26 and the trace
holds exactly one metadata fetch (no re-fetch after the mutation); the
descriptor is shaped from the mutation response itself; an absent
`replies` array or an absent `addSheet.properties` in the first reply
fails with `SheetCreationFailed`, while a present-but-empty `replies`
array fails with a generic TypeError instead. -/
theorem addSheet_creation (env : RemoteEnv) (spreadsheetId sheetTitle : String)
    (habs : (formatSpreadsheet spreadsheetId (env.getResp spreadsheetId)).sheets.any
      (fun sheet => sheet.title = sheetTitle) = false) :
    ((addSheet env spreadsheetId sheetTitle none).2 =
      [RemoteCall.getInfo spreadsheetId,
       RemoteCall.sheetBatchUpdate spreadsheetId
         { title := sheetTitle, rowCount := 1000, columnCount := 26 }]) ∧
    ((env.sheetBatchResp spreadsheetId
        { title := sheetTitle, rowCount := 1000, columnCount := 26 }).replies = none →
      (addSheet env spreadsheetId sheetTitle none).1 =
        .error "Failed to retrieve created sheet properties") ∧
    ((env.sheetBatchResp spreadsheetId
        { title := sheetTitle, rowCount := 1000, columnCount := 26 }).replies = some [] →
      (addSheet env spreadsheetId sheetTitle none).1 =
        .error "Cannot read properties of undefined (reading 'addSheet')") ∧
    (∀ reply rest, (env.sheetBatchResp spreadsheetId
        { title := sheetTitle, rowCount := 1000, columnCount := 26 }).replies =
          some (reply :: rest) →
      reply.addSheet.bind (fun a => a.properties) = none →
      (addSheet env spreadsheetId sheetTitle none).1 =
        .error "Failed to retrieve created sheet properties") ∧
    (∀ reply rest p, (env.sheetBatchResp spreadsheetId
        { title := sheetTitle, rowCount := 1000, columnCount := 26 }).replies =
          some (reply :: rest) →
      reply.addSheet.bind (fun a => a.properties) = some p →
      (addSheet env spreadsheetId sheetTitle none).1 =
        .ok { title := strOr p.title sheetTitle
              sheetId := intOr p.sheetId 0
              rowCount := intOr (p.gridProperties.bind (fun g => g.rowCount)) 1000
              columnCount := intOr (p.gridProperties.bind (fun g => g.columnCount)) 26 }) := by
  unfold addSheet getSpreadsheetInfo
  simp only [habs, Bool.false_eq_true, if_false,
    show intOr ((none : Option AddSheetOptions).bind fun o => o.rowCount) 1000 = (1000 : Int)
      from rfl,
    show intOr ((none : Option AddSheetOptions).bind fun o => o.columnCount) 26 = (26 : Int)
      from rfl,
    show Option.bind (none : Option AddSheetOptions) (fun o => o.rowCount) = none from rfl,
    show Option.bind (none : Option AddSheetOptions) (fun o => o.columnCount) = none from rfl,
    show intOr (none : Option Int) 1000 = (1000 : Int) from rfl,
    show intOr (none : Option Int) 26 = (26 : Int) from rfl]
  refine ⟨?_, ?_, ?_, ?_, ?_⟩
  · cases hrep : (env.sheetBatchResp spreadsheetId
        { title := sheetTitle, rowCount := 1000, columnCount := 26 }).replies with
    | none => simp [hrep]
    | some replies =>
      cases replies with
      | nil => simp [hrep]
      | cons reply rest =>
        cases hprops : reply.addSheet.bind (fun a => a.properties) with
        | none => simp [hrep, hprops]
        | some p => simp [hrep, hprops]
  · intro hrep
    simp [hrep]
  · intro hrep
    simp [hrep]
  · intro reply rest hrep hprops
    simp [hrep, hprops]
  · intro reply rest p hrep hprops
    simp [hrep, hprops]

/-- A remote authority whose mutation response carries the created
sheet's properties. -/
def createdEnv : RemoteEnv :=
  { baseEnv with
    sheetBatchResp := fun _ _ =>
      { replies := some
          [{ addSheet := some
              { properties := some
                  { title := some "Q2"
                    sheetId := some 7
                    gridProperties := some { rowCount := some 1000, columnCount := some 26 } } } }] } }

/-- Witness for the amended C9 statement at a concrete environment. -/
theorem addSheet_creation_witness :
    (addSheet createdEnv "id" "Q2" none).2 =
      [RemoteCall.getInfo "id",
       RemoteCall.sheetBatchUpdate "id" { title := "Q2", rowCount := 1000, columnCount := 26 }] ∧
    (addSheet createdEnv "id" "Q2" none).1 =
      .ok { title := "Q2", sheetId := 7, rowCount := 1000, columnCount := 26 } := by
  have h := addSheet_creation createdEnv "id" "Q2" (by decide)
  refine ⟨h.1, ?_⟩
  have hok := h.2.2.2.2
    { addSheet := some
        { properties := some
            { title := some "Q2"
              sheetId := some 7
              gridProperties := some { rowCount := some 1000, columnCount := some 26 } } } }
    []
    { title := some "Q2"
      sheetId := some 7
      gridProperties := some { rowCount := some 1000, columnCount := some 26 } }
    (by decide) (by decide)
  rw [hok]
  decide

/-! ## Resolver pattern lemmas -/

/-- The trailing boundary group `(?:\/|$|\?)` of the first URL pattern. -/
def UrlBoundary (post : List Char) : Prop :=
  post = [] ∨ post.head? = some '/' ∨ post.head? = some '?'

/-- The first URL pattern, as the spec states it: somewhere in the input,
the literal stem followed by a non-empty ID run ending at a path
separator, a query marker, or the end of input. -/
def Matches1 (cs : List Char) : Prop :=
  ∃ pre tok post, cs = pre ++ urlStem.data ++ tok ++ post ∧
    tok ≠ [] ∧ tok.all idChar = true ∧ UrlBoundary post

/-- The second URL pattern: the first without the boundary constraint. -/
def Matches2 (cs : List Char) : Prop :=
  ∃ pre tok post, cs = pre ++ urlStem.data ++ tok ++ post ∧
    tok ≠ [] ∧ tok.all idChar = true

/-- `leadsWith` decides the existence of a suffix completing the
pattern literal. -/
theorem leadsWith_iff : ∀ p cs : List Char, leadsWith p cs = true ↔ ∃ t, cs = p ++ t := by
  intro p
  induction p with
  | nil => intro cs; simp [leadsWith]
  | cons a p ih =>
    intro cs
    cases cs with
    | nil =>
      simp only [leadsWith]
      constructor
      · intro h; cases h
      · rintro ⟨t, ht⟩; cases ht
    | cons c cs =>
      simp only [leadsWith, Bool.and_eq_true, decide_eq_true_eq, ih]
      constructor
      · rintro ⟨rfl, t, rfl⟩; exact ⟨t, rfl⟩
      · rintro ⟨t, ht⟩
        rw [List.cons_append] at ht
        cases ht
        exact ⟨rfl, t, rfl⟩

/-- A boundary either ends the input or starts with a non-ID character. -/
theorem urlBoundary_stop {post : List Char} (h : UrlBoundary post) :
    post = [] ∨ ∃ c cs, post = c :: cs ∧ idChar c = false := by
  rcases h with rfl | hh | hh
  · exact Or.inl rfl
  · cases post with
    | nil => exact Or.inl rfl
    | cons c cs =>
      simp only [List.head?_cons, Option.some.injEq] at hh
      exact Or.inr ⟨c, cs, by rw [hh], by rw [hh]; decide⟩
  · cases post with
    | nil => exact Or.inl rfl
    | cons c cs =>
      simp only [List.head?_cons, Option.some.injEq] at hh
      exact Or.inr ⟨c, cs, by rw [hh], by rw [hh]; decide⟩

/-- Soundness of a successful pattern-1 attempt: the input at this
position decomposes as stem, capture, boundary suffix. -/
theorem urlMatch1At_sound {cs r : List Char} (h : urlMatch1At cs = some r) :
    ∃ post, cs = urlStem.data ++ r ++ post ∧ r ≠ [] ∧ r.all idChar = true ∧ UrlBoundary post := by
  unfold urlMatch1At at h
  by_cases hl : leadsWith urlStem.data cs = true
  · rcases (leadsWith_iff _ _).mp hl with ⟨t, rfl⟩
    rw [if_pos hl] at h
    rw [List.drop_left] at h
    by_cases hcond : (!(t.takeWhile idChar).isEmpty &&
        ((t.dropWhile idChar).isEmpty || (t.dropWhile idChar).head? = some '/' ||
          (t.dropWhile idChar).head? = some '?')) = true
    · rw [if_pos hcond] at h
      cases h
      simp only [Bool.and_eq_true, Bool.or_eq_true, Bool.not_eq_true', List.isEmpty_eq_false,
        decide_eq_true_eq] at hcond
      refine ⟨t.dropWhile idChar, ?_, hcond.1, all_takeWhile _ t, ?_⟩
      · rw [List.append_assoc, List.takeWhile_append_dropWhile]
      · rcases hcond.2 with (hh | hh) | hh
        · exact Or.inl (by simpa using hh)
        · exact Or.inr (Or.inl hh)
        · exact Or.inr (Or.inr hh)
    · rw [if_neg hcond] at h
      cases h
  · rw [if_neg hl] at h
    cases h

/-- Completeness of a pattern-1 attempt: a decomposition at this
position makes the attempt succeed, capturing exactly the ID run. -/
theorem urlMatch1At_complete (tok post : List Char) (hne : tok ≠ [])
    (hall : tok.all idChar = true) (hb : UrlBoundary post) :
    urlMatch1At (urlStem.data ++ (tok ++ post)) = some tok := by
  have hstop := urlBoundary_stop hb
  unfold urlMatch1At
  rw [if_pos ((leadsWith_iff _ _).mpr ⟨tok ++ post, rfl⟩)]
  simp only [List.drop_left, takeWhile_all_append _ _ _ hall, dropWhile_all_append _ _ _ hall,
    takeWhile_stop _ _ hstop, dropWhile_stop _ _ hstop, List.append_nil]
  rw [if_pos ?_]
  simp only [Bool.and_eq_true, Bool.or_eq_true, Bool.not_eq_true',
    List.isEmpty_eq_false, decide_eq_true_eq]
  refine ⟨hne, ?_⟩
  rcases hb with rfl | hh | hh
  · exact Or.inl (Or.inl (by simp))
  · exact Or.inl (Or.inr hh)
  · exact Or.inr hh

/-- Soundness of a successful pattern-2 attempt. -/
theorem urlMatch2At_sound {cs r : List Char} (h : urlMatch2At cs = some r) :
    ∃ post, cs = urlStem.data ++ r ++ post ∧ r ≠ [] ∧ r.all idChar = true := by
  unfold urlMatch2At at h
  by_cases hl : leadsWith urlStem.data cs = true
  · rcases (leadsWith_iff _ _).mp hl with ⟨t, rfl⟩
    rw [if_pos hl] at h
    rw [List.drop_left] at h
    by_cases hcond : (!(t.takeWhile idChar).isEmpty) = true
    · rw [if_pos hcond] at h
      cases h
      simp only [Bool.not_eq_true', List.isEmpty_eq_false] at hcond
      refine ⟨t.dropWhile idChar, ?_, hcond, all_takeWhile _ t⟩
      rw [List.append_assoc, List.takeWhile_append_dropWhile]
    · rw [if_neg hcond] at h
      cases h
  · rw [if_neg hl] at h
    cases h

/-- Completeness of a pattern-2 attempt: any non-empty ID run after the
stem makes the attempt succeed. -/
theorem urlMatch2At_isSome (tok post : List Char) (hne : tok ≠ [])
    (hall : tok.all idChar = true) :
    (urlMatch2At (urlStem.data ++ (tok ++ post))).isSome = true := by
  unfold urlMatch2At
  rw [if_pos ((leadsWith_iff _ _).mpr ⟨tok ++ post, rfl⟩)]
  simp only [List.drop_left, takeWhile_all_append _ _ _ hall]
  rw [if_pos ?_]
  · rfl
  · simp only [Bool.not_eq_true', List.isEmpty_eq_false]
    intro hcontra
    exact hne (List.append_eq_nil.mp hcontra).1

/-- A successful attempt at the current position short-circuits the scan. -/
theorem findUrlMatch1_of_attempt {cs r : List Char} (h : urlMatch1At cs = some r) :
    findUrlMatch1 cs = some r := by
  cases cs with
  | nil =>
    have : urlMatch1At [] = none := by decide
    rw [this] at h
    cases h
  | cons c rest => simp [findUrlMatch1, h]

/-- A successful attempt at the current position short-circuits the scan. -/
theorem findUrlMatch2_of_attempt {cs r : List Char} (h : urlMatch2At cs = some r) :
    findUrlMatch2 cs = some r := by
  cases cs with
  | nil =>
    have : urlMatch2At [] = none := by decide
    rw [this] at h
    cases h
  | cons c rest => simp [findUrlMatch2, h]

/-- Soundness of the pattern-1 scan: a successful match decomposes the input. -/
theorem findUrlMatch1_sound : ∀ {cs r : List Char}, findUrlMatch1 cs = some r →
    ∃ pre post, cs = pre ++ urlStem.data ++ r ++ post ∧ r ≠ [] ∧ r.all idChar = true ∧
      UrlBoundary post := by
  intro cs
  induction cs with
  | nil => intro r h; cases h
  | cons c rest ih =>
    intro r h
    rw [show findUrlMatch1 (c :: rest) = (match urlMatch1At (c :: rest) with
        | some run => some run | none => findUrlMatch1 rest) from rfl] at h
    cases hat : urlMatch1At (c :: rest) with
    | some run =>
      rw [hat] at h
      cases h
      rcases urlMatch1At_sound hat with ⟨post, heq, hne, hall, hb⟩
      exact ⟨[], post, by rw [heq]; simp, hne, hall, hb⟩
    | none =>
      rw [hat] at h
      rcases ih h with ⟨pre, post, heq, hne, hall, hb⟩
      exact ⟨c :: pre, post, by rw [heq]; simp, hne, hall, hb⟩

/-- Soundness of the pattern-2 scan. -/
theorem findUrlMatch2_sound : ∀ {cs r : List Char}, findUrlMatch2 cs = some r →
    ∃ pre post, cs = pre ++ urlStem.data ++ r ++ post ∧ r ≠ [] ∧ r.all idChar = true := by
  intro cs
  induction cs with
  | nil => intro r h; cases h
  | cons c rest ih =>
    intro r h
    rw [show findUrlMatch2 (c :: rest) = (match urlMatch2At (c :: rest) with
        | some run => some run | none => findUrlMatch2 rest) from rfl] at h
    cases hat : urlMatch2At (c :: rest) with
    | some run =>
      rw [hat] at h
      cases h
      rcases urlMatch2At_sound hat with ⟨post, heq, hne, hall⟩
      exact ⟨[], post, by rw [heq]; simp, hne, hall⟩
    | none =>
      rw [hat] at h
      rcases ih h with ⟨pre, post, heq, hne, hall⟩
      exact ⟨c :: pre, post, by rw [heq]; simp, hne, hall⟩

/-- Completeness of the pattern-1 scan: any spec-level match makes the
scan succeed. -/
theorem findUrlMatch1_isSome {cs : List Char} (h : Matches1 cs) :
    (findUrlMatch1 cs).isSome = true := by
  rcases h with ⟨pre, tok, post, rfl, hne, hall, hb⟩
  induction pre with
  | nil =>
    rw [List.nil_append, List.append_assoc]
    rw [findUrlMatch1_of_attempt (urlMatch1At_complete tok post hne hall hb)]
    rfl
  | cons c pre ih =>
    rw [show ((c :: pre) ++ urlStem.data ++ tok ++ post : List Char) =
        c :: (pre ++ urlStem.data ++ tok ++ post) from by simp]
    rw [show findUrlMatch1 (c :: (pre ++ urlStem.data ++ tok ++ post)) =
        (match urlMatch1At (c :: (pre ++ urlStem.data ++ tok ++ post)) with
        | some run => some run | none => findUrlMatch1 (pre ++ urlStem.data ++ tok ++ post))
        from rfl]
    cases hat : urlMatch1At (c :: (pre ++ urlStem.data ++ tok ++ post)) with
    | some run => rfl
    | none => exact ih

/-- Completeness of the pattern-2 scan. -/
theorem findUrlMatch2_isSome {cs : List Char} (h : Matches2 cs) :
    (findUrlMatch2 cs).isSome = true := by
  rcases h with ⟨pre, tok, post, rfl, hne, hall⟩
  induction pre with
  | nil =>
    rw [List.nil_append, List.append_assoc]
    cases hat : urlMatch2At (urlStem.data ++ (tok ++ post)) with
    | some run => rw [findUrlMatch2_of_attempt hat]; rfl
    | none =>
      have := urlMatch2At_isSome tok post hne hall
      rw [hat] at this
      cases this
  | cons c pre ih =>
    rw [show ((c :: pre) ++ urlStem.data ++ tok ++ post : List Char) =
        c :: (pre ++ urlStem.data ++ tok ++ post) from by simp]
    rw [show findUrlMatch2 (c :: (pre ++ urlStem.data ++ tok ++ post)) =
        (match urlMatch2At (c :: (pre ++ urlStem.data ++ tok ++ post)) with
        | some run => some run | none => findUrlMatch2 (pre ++ urlStem.data ++ tok ++ post))
        from rfl]
    cases hat : urlMatch2At (c :: (pre ++ urlStem.data ++ tok ++ post)) with
    | some run => rfl
    | none => exact ih

/-- An input made solely of ID-alphabet characters cannot contain the
URL stem (which contains `:`), so both URL scans fail on it. -/
theorem findUrlMatch1_none_of_idChars {cs : List Char} (h : cs.all idChar = true) :
    findUrlMatch1 cs = none := by
  cases hf : findUrlMatch1 cs with
  | none => rfl
  | some r =>
    exfalso
    rcases findUrlMatch1_sound hf with ⟨pre, post, rfl, -, -, -⟩
    have hcolon : ':' ∈ pre ++ urlStem.data ++ r ++ post := by
      refine List.mem_append_left _ (List.mem_append_left _ (List.mem_append_right _ ?_))
      decide
    have := List.all_eq_true.mp h ':' hcolon
    exact absurd this (by decide)

/-- Both URL scans fail on ID-alphabet-only inputs. -/
theorem findUrlMatch2_none_of_idChars {cs : List Char} (h : cs.all idChar = true) :
    findUrlMatch2 cs = none := by
  cases hf : findUrlMatch2 cs with
  | none => rfl
  | some r =>
    exfalso
    rcases findUrlMatch2_sound hf with ⟨pre, post, rfl, -, -⟩
    have hcolon : ':' ∈ pre ++ urlStem.data ++ r ++ post := by
      refine List.mem_append_left _ (List.mem_append_left _ (List.mem_append_right _ ?_))
      decide
    have := List.all_eq_true.mp h ':' hcolon
    exact absurd this (by decide)

/-- A string differs from `""` exactly when its character list is
non-empty. -/
theorem str_ne_empty_iff (s : String) : s ≠ "" ↔ s.data ≠ [] := by
  cases s with
  | mk l =>
    constructor
    · intro h hd
      have hl : l = [] := hd
      subst hl
      exact h rfl
    · intro h hs
      have hl : l = [] := congrArg String.data hs
      exact h hl

/-- Rebuilding a string from its own characters is the identity. -/
theorem string_mk_data (s : String) : String.mk s.data = s := by
  cases s with
  | mk l => rfl

/-- C4: the resolver contract. A well-formed sharing URL (full or
shortened: stem, ID, then `/`, `?` or end of input) resolves to exactly
the ID substring; a bare ID-alphabet token resolves to itself; and the
`InvalidIdentifier` failure occurs exactly when none of the three
patterns matches the input. -/
theorem extractSpreadsheetId_resolve :
    (∀ tok rest : String, tok ≠ "" → tok.data.all idChar = true →
      (rest = "" ∨ rest.data.head? = some '/' ∨ rest.data.head? = some '?') →
      extractSpreadsheetId (urlStem ++ tok ++ rest) = .ok tok) ∧
    (∀ s : String, s ≠ "" → s.data.all idChar = true → extractSpreadsheetId s = .ok s) ∧
    (∀ s : String, extractSpreadsheetId s = .error "Invalid Google Spreadsheet URL or ID" ↔
      (¬ Matches1 s.data ∧ ¬ Matches2 s.data ∧ ¬ (s ≠ "" ∧ s.data.all idChar = true))) := by
  refine ⟨?_, ?_, ?_⟩
  · intro tok rest hne hall hb
    have hdata : (urlStem ++ tok ++ rest).data = urlStem.data ++ (tok.data ++ rest.data) := by
      simp [String.data_append, List.append_assoc]
    have hbound : UrlBoundary rest.data := by
      rcases hb with rfl | hh | hh
      · exact Or.inl rfl
      · exact Or.inr (Or.inl hh)
      · exact Or.inr (Or.inr hh)
    have hne' : tok.data ≠ [] := (str_ne_empty_iff tok).mp hne
    have hfind : findUrlMatch1 (urlStem ++ tok ++ rest).data = some tok.data := by
      rw [hdata]
      exact findUrlMatch1_of_attempt (urlMatch1At_complete tok.data rest.data hne' hall hbound)
    simp only [extractSpreadsheetId, hfind]
  · intro s hne hall
    have hbare : bareIdMatch s.data = true := by
      simp only [bareIdMatch, Bool.and_eq_true, Bool.not_eq_true', List.isEmpty_eq_false]
      exact ⟨(str_ne_empty_iff s).mp hne, hall⟩
    simp only [extractSpreadsheetId, findUrlMatch1_none_of_idChars hall,
      findUrlMatch2_none_of_idChars hall, hbare, if_true]
  · intro s
    cases h1 : findUrlMatch1 s.data with
    | some r =>
      have hm : Matches1 s.data := by
        rcases findUrlMatch1_sound h1 with ⟨pre, post, heq, hne, hall, hb⟩
        exact ⟨pre, r, post, heq, hne, hall, hb⟩
      simp only [extractSpreadsheetId, h1]
      simp [hm]
    | none =>
      cases h2 : findUrlMatch2 s.data with
      | some r =>
        have hm : Matches2 s.data := by
          rcases findUrlMatch2_sound h2 with ⟨pre, post, heq, hne, hall⟩
          exact ⟨pre, r, post, heq, hne, hall⟩
        simp only [extractSpreadsheetId, h1, h2]
        simp [hm]
      | none =>
        have hn1 : ¬ Matches1 s.data := fun hm => by
          have := findUrlMatch1_isSome hm
          rw [h1] at this
          cases this
        have hn2 : ¬ Matches2 s.data := fun hm => by
          have := findUrlMatch2_isSome hm
          rw [h2] at this
          cases this
        cases h3 : bareIdMatch s.data with
        | true =>
          have hm3 : s ≠ "" ∧ s.data.all idChar = true := by
            simp only [bareIdMatch, Bool.and_eq_true, Bool.not_eq_true',
              List.isEmpty_eq_false] at h3
            exact ⟨(str_ne_empty_iff s).mpr h3.1, h3.2⟩
          simp only [extractSpreadsheetId, h1, h2, h3, if_true]
          simp [hm3.1, hm3.2]
        | false =>
          have hm3 : ¬ (s ≠ "" ∧ s.data.all idChar = true) := by
            rintro ⟨hne, hall⟩
            have hb : bareIdMatch s.data = true := by
              simp only [bareIdMatch, Bool.and_eq_true, Bool.not_eq_true',
                List.isEmpty_eq_false]
              exact ⟨(str_ne_empty_iff s).mp hne, hall⟩
            rw [h3] at hb
            cases hb
          simp only [extractSpreadsheetId, h1, h2, h3, Bool.false_eq_true, if_false]
          constructor
          · intro _
            exact ⟨hn1, hn2, hm3⟩
          · intro _
            trivial

set_option maxRecDepth 100000 in
/-- Witness for C4: a full URL, a bare ID, and a non-matching input. -/
theorem extractSpreadsheetId_resolve_witness :
    extractSpreadsheetId (urlStem ++ "abc123" ++ "/edit?usp=sharing") = .ok "abc123" ∧
    extractSpreadsheetId "abc123" = .ok "abc123" ∧
    extractSpreadsheetId "https://example.com/invalid-url" =
      .error "Invalid Google Spreadsheet URL or ID" := by
  refine ⟨extractSpreadsheetId_resolve.1 "abc123" "/edit?usp=sharing" (by decide) (by decide)
      (Or.inr (Or.inl (by decide))),
    extractSpreadsheetId_resolve.2.1 "abc123" (by decide) (by decide),
    (extractSpreadsheetId_resolve.2.2 "https://example.com/invalid-url").mpr ⟨?_, ?_, ?_⟩⟩
  · intro hm
    have := findUrlMatch1_isSome hm
    rw [show findUrlMatch1 "https://example.com/invalid-url".data = none from by decide] at this
    cases this
  · intro hm
    have := findUrlMatch2_isSome hm
    rw [show findUrlMatch2 "https://example.com/invalid-url".data = none from by decide] at this
    cases this
  · rintro ⟨-, hall⟩
    exact absurd hall (by decide)

/-- The three accepted input shapes of the resolver contract: a sharing
URL (full or shortened, with the ID run ending at `/`, `?` or the end of
input) or a bare ID-alphabet token. -/
def AcceptedIdInput (s : String) : Prop :=
  (∃ tok rest : String, s = urlStem ++ tok ++ rest ∧ tok ≠ "" ∧ tok.data.all idChar = true ∧
    (rest = "" ∨ rest.data.head? = some '/' ∨ rest.data.head? = some '?')) ∨
  (s ≠ "" ∧ s.data.all idChar = true)

set_option maxRecDepth 100000 in
/-- C5 counterexample. The claim says an accepted result is never
extracted from a proper substring of an input that is not itself one of
the three accepted shapes; yet the URL patterns are unanchored, so an
input with a leading `"x "` — which is none of the accepted shapes —
still resolves to the ID embedded in it. -/
theorem extract_substring_counterexample :
    extractSpreadsheetId "x https://docs.google.com/spreadsheets/d/abc" = .ok "abc" ∧
    ¬ AcceptedIdInput "x https://docs.google.com/spreadsheets/d/abc" := by
  constructor
  · decide
  · rintro (⟨tok, rest, heq, -, -, -⟩ | ⟨-, hall⟩)
    · have hd : ("x https://docs.google.com/spreadsheets/d/abc").data =
          urlStem.data ++ (tok.data ++ rest.data) := by
        rw [heq]
        simp [String.data_append, List.append_assoc]
      have hx : ("x https://docs.google.com/spreadsheets/d/abc").data.head? = some 'h' := by
        rw [hd]
        rfl
      have : some 'x' = some 'h' := by
        rw [← hx]
        decide
      exact absurd (Option.some.injEq _ _ ▸ this) (by decide)
    · exact absurd hall (by decide)

/-- C5 amended: the resolver tries its patterns in order and the first
match wins — a pattern-1 match is returned outright, any spec-level
pattern-1 match guarantees success, and every success is justified by
one of the three patterns; but the URL patterns are unanchored, so a
match may begin anywhere in the input. -/
theorem extract_order_amended :
    (∀ (s : String) (r : List Char), findUrlMatch1 s.data = some r →
      extractSpreadsheetId s = .ok (String.mk r)) ∧
    (∀ s : String, Matches1 s.data → ∃ r, extractSpreadsheetId s = .ok r) ∧
    (∀ (s r : String), extractSpreadsheetId s = .ok r →
      Matches1 s.data ∨ Matches2 s.data ∨ (s ≠ "" ∧ s.data.all idChar = true)) := by
  have hfirst : ∀ (s : String) (r : List Char), findUrlMatch1 s.data = some r →
      extractSpreadsheetId s = .ok (String.mk r) := by
    intro s r h
    simp only [extractSpreadsheetId, h]
  refine ⟨hfirst, ?_, ?_⟩
  · intro s hm
    have := findUrlMatch1_isSome hm
    cases h : findUrlMatch1 s.data with
    | none => rw [h] at this; cases this
    | some r => exact ⟨String.mk r, hfirst s r h⟩
  · intro s r h
    cases h1 : findUrlMatch1 s.data with
    | some run =>
      rcases findUrlMatch1_sound h1 with ⟨pre, post, heq, hne, hall, hb⟩
      exact Or.inl ⟨pre, run, post, heq, hne, hall, hb⟩
    | none =>
      cases h2 : findUrlMatch2 s.data with
      | some run =>
        rcases findUrlMatch2_sound h2 with ⟨pre, post, heq, hne, hall⟩
        exact Or.inr (Or.inl ⟨pre, run, post, heq, hne, hall⟩)
      | none =>
        cases h3 : bareIdMatch s.data with
        | true =>
          refine Or.inr (Or.inr ?_)
          simp only [bareIdMatch, Bool.and_eq_true, Bool.not_eq_true',
            List.isEmpty_eq_false] at h3
          exact ⟨(str_ne_empty_iff s).mpr h3.1, h3.2⟩
        | false =>
          exfalso
          simp only [extractSpreadsheetId, h1, h2, h3, Bool.false_eq_true, if_false] at h
          cases h

set_option maxRecDepth 100000 in
/-- Witness for the amended C5 statement: an embedded URL resolves via
the first pattern, and the spec-level match guarantees success. -/
theorem extract_order_amended_witness :
    extractSpreadsheetId "q https://docs.google.com/spreadsheets/d/zz" = .ok "zz" ∧
    (∃ r, extractSpreadsheetId "q https://docs.google.com/spreadsheets/d/zz" = .ok r) := by
  refine ⟨extract_order_amended.1 _ ['z', 'z'] (by decide), ?_⟩
  exact extract_order_amended.2.1 "q https://docs.google.com/spreadsheets/d/zz"
    ⟨['q', ' '], ['z', 'z'], [], by decide, by decide, by decide, Or.inl rfl⟩

/-! ## Tool-layer shape validation lemmas -/

/-- A well-shaped `values` argument: a 2D array, non-empty, every row a
non-empty array. -/
def GoodValues (values : JsMatrix) : Prop :=
  ∃ rows, values = .arr rows ∧ rows ≠ [] ∧ ∀ r ∈ rows, ∃ cells, r = .arr cells ∧ cells ≠ []

/-- A row passes the bad-row check exactly when it is a non-empty array. -/
theorem rowBad_false_iff (r : JsRow) :
    rowBad r = false ↔ ∃ cells, r = .arr cells ∧ cells ≠ [] := by
  cases r with
  | nonArr =>
    constructor
    · intro h; cases h
    · rintro ⟨cells, h, -⟩; cases h
  | arr cells =>
    simp only [rowBad, List.isEmpty_eq_false]
    constructor
    · intro h; exact ⟨cells, rfl, h⟩
    · rintro ⟨cells2, heq, hne⟩; cases heq; exact hne

/-- `hasEmptyRows` is false exactly when every row is a non-empty array. -/
theorem hasEmptyRows_false_iff : ∀ rows : List JsRow,
    hasEmptyRows rows = false ↔ ∀ r ∈ rows, ∃ cells, r = .arr cells ∧ cells ≠ [] := by
  intro rows
  induction rows with
  | nil => simp [hasEmptyRows]
  | cons r rest ih =>
    simp only [hasEmptyRows, List.any_cons, Bool.or_eq_false_iff] at *
    constructor
    · rintro ⟨h1, h2⟩ r2 hr2
      rcases List.mem_cons.mp hr2 with rfl | hmem
      · exact (rowBad_false_iff r2).mp h1
      · exact ih.mp h2 r2 hmem
    · intro h
      exact ⟨(rowBad_false_iff r).mpr (h r (List.mem_cons_self r rest)),
        ih.mpr fun r2 hr2 => h r2 (List.mem_cons_of_mem r hr2)⟩

/-- The `update_cells` shape check is silent exactly on good values, and
its error messages are the two fixed strings. -/
theorem updateValuesShapeError_none_iff (values : JsMatrix) :
    updateValuesShapeError values = none ↔ GoodValues values := by
  cases values with
  | nonArr =>
    constructor
    · intro h; cases h
    · rintro ⟨rows, h, -⟩; cases h
  | arr rows =>
    unfold updateValuesShapeError
    cases hrows : rows.isEmpty with
    | true =>
      simp only [hrows, if_true]
      constructor
      · intro h; cases h
      · rintro ⟨rows2, heq, hne, -⟩
        cases heq
        exact absurd (List.isEmpty_eq_true.mp hrows) hne
    | false =>
      cases hbad : hasEmptyRows rows with
      | true =>
        simp only [hrows, hbad, Bool.false_eq_true, if_false, if_true]
        constructor
        · intro h; cases h
        · rintro ⟨rows2, heq, -, hgood⟩
          cases heq
          rw [(hasEmptyRows_false_iff rows).mpr hgood] at hbad
          cases hbad
      | false =>
        simp only [hrows, hbad, Bool.false_eq_true, if_false]
        constructor
        · intro _
          exact ⟨rows, rfl, List.isEmpty_eq_false.mp hrows, (hasEmptyRows_false_iff rows).mp hbad⟩
        · intro _
          trivial

/-- The `update_cells` rejection messages are fixed strings. -/
theorem updateValuesShapeError_msg {values : JsMatrix} {msg : String}
    (h : updateValuesShapeError values = some msg) :
    msg = "Values must be a non-empty 2D array" ∨
      msg = "Each row in values must be a non-empty array" := by
  cases values with
  | nonArr =>
    cases h
    exact Or.inl rfl
  | arr rows =>
    simp only [updateValuesShapeError] at h
    cases hrows : rows.isEmpty with
    | true =>
      rw [hrows] at h
      cases h
      exact Or.inl rfl
    | false =>
      rw [hrows] at h
      cases hbad : hasEmptyRows rows with
      | true =>
        rw [hbad] at h
        cases h
        exact Or.inr rfl
      | false =>
        rw [hbad] at h
        simp at h

/-- The batch row loop is silent exactly when every row is a non-empty
array. -/
theorem batchRowsError_none_iff (range : String) : ∀ rows : List JsRow,
    batchRowsError range rows = none ↔ ∀ r ∈ rows, ∃ cells, r = .arr cells ∧ cells ≠ [] := by
  intro rows
  induction rows with
  | nil => simp [batchRowsError]
  | cons r rest ih =>
    cases r with
    | nonArr =>
      simp only [batchRowsError]
      constructor
      · intro h; cases h
      · intro h
        rcases h JsRow.nonArr (List.mem_cons_self _ _) with ⟨cells, heq, -⟩
        cases heq
    | arr cells =>
      cases cells with
      | nil =>
        simp only [batchRowsError]
        constructor
        · intro h; cases h
        · intro h
          rcases h (JsRow.arr []) (List.mem_cons_self _ _) with ⟨cells2, heq, hne⟩
          cases heq
          exact absurd rfl hne
      | cons c cs =>
        simp only [batchRowsError, ih]
        constructor
        · intro h r2 hr2
          rcases List.mem_cons.mp hr2 with rfl | hmem
          · exact ⟨c :: cs, rfl, by simp⟩
          · exact h r2 hmem
        · intro h r2 hr2
          exact h r2 (List.mem_cons_of_mem _ hr2)

/-- Every message produced by the batch row loop embeds the range. -/
theorem batchRowsError_mentions_range (range : String) : ∀ (rows : List JsRow) (msg : String),
    batchRowsError range rows = some msg → ∃ a b, msg = a ++ range ++ b := by
  intro rows
  induction rows with
  | nil => intro msg h; cases h
  | cons r rest ih =>
    intro msg h
    cases r with
    | nonArr =>
      simp only [batchRowsError, Option.some.injEq] at h
      exact ⟨"Each row for range ", " must be an array", by rw [← h]⟩
    | arr cells =>
      cases cells with
      | nil =>
        simp only [batchRowsError, Option.some.injEq] at h
        exact ⟨"Each row for range ", " must be a non-empty array", by rw [← h]⟩
      | cons c cs =>
        simp only [batchRowsError] at h
        exact ih msg h

/-- The batch per-update shape check is silent exactly on good values. -/
theorem batchUpdateShapeError_none_iff (update : BatchToolUpdate) :
    batchUpdateShapeError update = none ↔ GoodValues update.values := by
  cases hv : update.values with
  | nonArr =>
    unfold batchUpdateShapeError
    rw [hv]
    constructor
    · intro h; cases h
    · rintro ⟨rows, heq, -, -⟩
      cases heq
  | arr rows =>
    unfold batchUpdateShapeError
    rw [hv]
    cases hrows : rows.isEmpty with
    | true =>
      simp only [hrows, if_true]
      constructor
      · intro h; cases h
      · rintro ⟨rows2, heq, hne, -⟩
        cases heq
        exact absurd (List.isEmpty_eq_true.mp hrows) hne
    | false =>
      simp only [hrows, Bool.false_eq_true, if_false, batchRowsError_none_iff]
      constructor
      · intro h
        exact ⟨rows, rfl, List.isEmpty_eq_false.mp hrows, h⟩
      · rintro ⟨rows2, heq, -, hgood⟩
        cases heq
        exact hgood

/-- Every message produced by the batch per-update check embeds the
update's range. -/
theorem batchUpdateShapeError_mentions_range (update : BatchToolUpdate) (msg : String)
    (h : batchUpdateShapeError update = some msg) : ∃ a b, msg = a ++ update.range ++ b := by
  cases hv : update.values with
  | nonArr =>
    simp only [batchUpdateShapeError, hv, Option.some.injEq] at h
    exact ⟨"Values for range ", " must be a non-empty 2D array", by rw [← h]⟩
  | arr rows =>
    simp only [batchUpdateShapeError, hv] at h
    cases hrows : rows.isEmpty with
    | true =>
      simp only [hrows, if_true, Option.some.injEq] at h
      exact ⟨"Values for range ", " must be a non-empty 2D array", by rw [← h]⟩
    | false =>
      simp only [hrows, Bool.false_eq_true, if_false] at h
      exact batchRowsError_mentions_range update.range rows msg h

/-- Any message of the batch validation loop belongs to one of the
updates, in particular to the first offending one. -/
theorem firstBatchShapeError_mem : ∀ (updates : List BatchToolUpdate) (msg : String),
    firstBatchShapeError updates = some msg →
    ∃ u ∈ updates, batchUpdateShapeError u = some msg := by
  intro updates
  induction updates with
  | nil => intro msg h; cases h
  | cons u rest ih =>
    intro msg h
    unfold firstBatchShapeError at h
    cases hu : batchUpdateShapeError u with
    | some m =>
      rw [hu] at h
      cases h
      exact ⟨u, List.mem_cons_self _ _, hu⟩
    | none =>
      rw [hu] at h
      rcases ih msg h with ⟨u2, hmem, hu2⟩
      exact ⟨u2, List.mem_cons_of_mem _ hmem, hu2⟩

/-- C6 counterexample. `update_cells` does reject the empty row before
any Access Layer call, but its rejection message is a fixed string that
does not identify the offending range `A1:B2`. -/
theorem updateCells_rangeMessage_counterexample :
    updateCellsExecute baseEnv "abc" "Sheet1" "A1:B2" (JsMatrix.arr [JsRow.arr []]) =
      ({ text := "Error: Each row in values must be a non-empty array", isError := true }, []) ∧
    occursIn "A1:B2".data "Error: Each row in values must be a non-empty array".data = false := by
  decide

/-- C6 amended: both tools reject an empty outer `values`, a non-array
row, and an empty row before any remote call; `batch_update_cells`
rejection messages embed the offending update's range, while the
`update_cells` rejection messages are two fixed strings without the
range; an empty batch `updates` array is likewise rejected up front. -/
theorem toolShapeValidation_amended :
    (∀ (env : RemoteEnv) (url spreadsheetId sheetName range : String) (values : JsMatrix)
        (msg : String),
      extractSpreadsheetId url = .ok spreadsheetId →
      updateValuesShapeError values = some msg →
      updateCellsExecute env url sheetName range values =
        ({ text := "Error: " ++ msg, isError := true }, []) ∧
      (msg = "Values must be a non-empty 2D array" ∨
        msg = "Each row in values must be a non-empty array")) ∧
    (∀ values, updateValuesShapeError values = none ↔ GoodValues values) ∧
    (∀ (env : RemoteEnv) (url spreadsheetId : String) (updates : List BatchToolUpdate)
        (msg : String),
      extractSpreadsheetId url = .ok spreadsheetId →
      firstBatchShapeError updates = some msg →
      batchUpdateCellsExecute env url updates =
        ({ text := "Error: " ++ msg, isError := true }, []) ∧
      ∃ u ∈ updates, batchUpdateShapeError u = some msg ∧ ∃ a b, msg = a ++ u.range ++ b) ∧
    (∀ update, batchUpdateShapeError update = none ↔ GoodValues update.values) ∧
    (∀ (env : RemoteEnv) (url spreadsheetId : String),
      extractSpreadsheetId url = .ok spreadsheetId →
      batchUpdateCellsExecute env url [] =
        ({ text := "Error: Updates must be a non-empty array", isError := true }, [])) := by
  refine ⟨?_, updateValuesShapeError_none_iff, ?_, batchUpdateShapeError_none_iff, ?_⟩
  · intro env url spreadsheetId sheetName range values msg hx hmsg
    refine ⟨?_, updateValuesShapeError_msg hmsg⟩
    simp only [updateCellsExecute, hx, hmsg]
  · intro env url spreadsheetId updates msg hx hmsg
    have hne : updates ≠ [] := by
      intro h
      rw [h] at hmsg
      cases hmsg
    refine ⟨?_, ?_⟩
    · simp only [batchUpdateCellsExecute, hx, hmsg,
        show updates.isEmpty = false from List.isEmpty_eq_false.mpr hne,
        Bool.false_eq_true, if_false]
    · rcases firstBatchShapeError_mem updates msg hmsg with ⟨u, hmem, hu⟩
      exact ⟨u, hmem, hu, batchUpdateShapeError_mentions_range u msg hu⟩
  · intro env url spreadsheetId hx
    simp only [batchUpdateCellsExecute, hx, List.isEmpty_nil, if_true]

/-- Witness for the amended C6 statement: an empty outer array for
`update_cells` and a non-array row for `batch_update_cells`. -/
theorem toolShapeValidation_amended_witness :
    updateCellsExecute baseEnv "xyz" "S" "B2" (JsMatrix.arr []) =
      ({ text := "Error: Values must be a non-empty 2D array", isError := true }, []) ∧
    batchUpdateCellsExecute baseEnv "xyz"
        [{ sheetName := "S", range := "C3:D4", values := JsMatrix.arr [JsRow.nonArr] }] =
      ({ text := "Error: Each row for range C3:D4 must be an array", isError := true }, []) := by
  constructor
  · exact (toolShapeValidation_amended.1 baseEnv "xyz" "xyz" "S" "B2" (JsMatrix.arr [])
      "Values must be a non-empty 2D array" (by decide) (by decide)).1
  · exact (toolShapeValidation_amended.2.2.1 baseEnv "xyz" "xyz"
      [{ sheetName := "S", range := "C3:D4", values := JsMatrix.arr [JsRow.nonArr] }]
      "Each row for range C3:D4 must be an array" (by decide) (by decide)).1
